import Mathlib

/-!
# Verification of the exam-generation and auto-grading service

A shallow embedding of the record-extraction, question-assembly and
grade-reconciliation core of the service (source files `llm_client.py`,
`question_generator.py`, `grader.py`, `models.py`, `main.py`), together
with theorems settling the specification claims.

Python dynamic values are modelled by the inductive type `PyVal`
(numbers as rationals), parsed records by association lists with
string keys, fallible Python code by `Except String`, and the pydantic
type coercions by explicit coercion functions.  Wall-clock timestamps
(`datetime.now()`) are modelled as `Nat` parameters.
-/

namespace ExamSys

/-- A dynamically typed Python value, as produced by parsing an LLM
response.  Numbers (int/float/bool in numeric position) are modelled
exactly as rationals; dictionary keys are restricted to strings, which
is the shape of every record this system produces or consumes. -/
inductive PyVal where
  | none
  | bool (b : Bool)
  | num (q : ℚ)
  | str (s : String)
  | list (elems : List PyVal)
  | dict (pairs : List (String × PyVal))

/-- A candidate record: a Python dict with string keys. -/
abbrev Record := List (String × PyVal)

/-- Dictionary lookup (`d[k]` / `d.get(k)`).  Records built by the
parsing layer never contain duplicate keys (Python dicts deduplicate on
construction), so first-match lookup is the dict semantics. -/
def pyGet : Record → String → Option PyVal
  | [], _ => Option.none
  | (k', v) :: rest, k => if k' = k then some v else pyGet rest k

/-- `d.get(k, default)`. -/
def pyGetD (r : Record) (k : String) (d : PyVal) : PyVal :=
  (pyGet r k).getD d

/-- `k in d`. -/
def hasKey (r : Record) (k : String) : Bool :=
  (pyGet r k).isSome

/-- Insert a key/value pair into a dict under construction, replacing
the value of an existing key in place (Python dict insertion order and
overwrite semantics). -/
def insertPair (r : Record) (k : String) (v : PyVal) : Record :=
  match r with
  | [] => [(k, v)]
  | (k', v') :: rest =>
      if k' = k then (k', v) :: rest else (k', v') :: insertPair rest k v

/-- Python truthiness (`bool(v)`). -/
def pyTruthy : PyVal → Bool
  | .none => false
  | .bool b => b
  | .num q => q ≠ 0
  | .str s => s ≠ ""
  | .list l => ¬ l.isEmpty
  | .dict d => ¬ d.isEmpty

/-- Is the value a Python dict (`isinstance(v, dict)`)? -/
def isDict : PyVal → Bool
  | .dict _ => true
  | _ => false

/-- The numeric value of a Python operand in arithmetic position:
ints/floats are numbers, bools are 1/0 (bool is a subclass of int);
any other operand raises a `TypeError`. -/
def pyNum? : PyVal → Option ℚ
  | .num q => some q
  | .bool b => some (if b then 1 else 0)
  | _ => Option.none

/-- Arithmetic coercion as an `Except` computation (a failed coercion
is Python raising a `TypeError` at the arithmetic operator). -/
def pyNumE (v : PyVal) : Except String ℚ :=
  match pyNum? v with
  | some q => .ok q
  | Option.none => .error "TypeError: unsupported operand type for arithmetic"

/-- Python `v == 0.0`: numeric values compare numerically, everything
else is simply unequal (no exception). -/
def pyEqZero (v : PyVal) : Bool :=
  match pyNum? v with
  | some q => q = 0
  | Option.none => false

/-- Parse the text of a Python/JSON float literal (`float(s)` on an
already-stripped numeric string): optional sign, digits, optional
fractional part.  Returns `none` on any other shape. -/
def parseFloatChars : List Char → Option ℚ :=
  fun cs =>
    let (sign, cs₁) :=
      match cs with
      | '-' :: rest => ((-1 : ℚ), rest)
      | '+' :: rest => ((1 : ℚ), rest)
      | _ => ((1 : ℚ), cs)
    let intPart := cs₁.takeWhile Char.isDigit
    let rest₁ := cs₁.dropWhile Char.isDigit
    if intPart.isEmpty then Option.none
    else
      let intVal : ℚ := intPart.foldl (fun acc c => acc * 10 + (c.toNat - '0'.toNat)) 0
      match rest₁ with
      | [] => some (sign * intVal)
      | '.' :: fracCs =>
          let fracPart := fracCs.takeWhile Char.isDigit
          let rest₂ := fracCs.dropWhile Char.isDigit
          if rest₂.isEmpty then
            let fracVal : ℚ := fracPart.foldl (fun acc c => acc * 10 + (c.toNat - '0'.toNat)) 0
            some (sign * (intVal + fracVal / (10 : ℚ) ^ fracPart.length))
          else Option.none
      | _ => Option.none

/-- `float(s)` on a string after `.strip()`. -/
def parseFloat? (s : String) : Option ℚ :=
  parseFloatChars ((s.data.dropWhile Char.isWhitespace).reverse.dropWhile Char.isWhitespace).reverse

/-- pydantic coercion to a `float` field (lax mode): numbers and bools
pass through, numeric strings are parsed, anything else is a
validation error. -/
def pydFloat? : PyVal → Option ℚ
  | .num q => some q
  | .bool b => some (if b then 1 else 0)
  | .str s => parseFloat? s
  | _ => Option.none

/-- pydantic coercion to a `float` field as an `Except` computation. -/
def pydFloatE (v : PyVal) : Except String ℚ :=
  match pydFloat? v with
  | some q => .ok q
  | Option.none => .error "ValidationError: value is not a valid float"

/-- pydantic coercion to a `str` field (v2 lax mode does not stringify
non-strings). -/
def pydStr? : PyVal → Option String
  | .str s => some s
  | _ => Option.none

/-- pydantic coercion to a `str` field as an `Except` computation. -/
def pydStrE (v : PyVal) : Except String String :=
  match pydStr? v with
  | some s => .ok s
  | Option.none => .error "ValidationError: value is not a valid string"

/-- pydantic coercion to a `bool` field (lax mode: bools, the ints
0/1, and the usual boolean-ish strings). -/
def pydBool? : PyVal → Option Bool
  | .bool b => some b
  | .num q => if q = 0 then some false else if q = 1 then some true else Option.none
  | .str s =>
      if s ∈ ["true", "True", "1", "yes", "on"] then some true
      else if s ∈ ["false", "False", "0", "no", "off"] then some false
      else Option.none
  | _ => Option.none

/-- pydantic coercion to a `bool` field as an `Except` computation. -/
def pydBoolE (v : PyVal) : Except String Bool :=
  match pydBool? v with
  | some b => .ok b
  | Option.none => .error "ValidationError: value is not a valid bool"

/-- pydantic coercion to a `List[str]` field: a list whose elements
all coerce to strings. -/
def pydStrListE (v : PyVal) : Except String (List String) :=
  match v with
  | .list l => l.mapM pydStrE
  | _ => .error "ValidationError: value is not a valid list"

end ExamSys

namespace ExamSys

/-! ## Literal parsing (model of `ast.literal_eval` and `json.loads`)

The extractor delegates to Python's stdlib parsers.  They are modelled
here as one recursive-descent parse routine over character lists,
configured for the Python dialect (single- or double-quoted strings,
`True`/`False`/`None`, trailing commas) or the strict JSON dialect
(double quotes only, `true`/`false`/`null`).  Structured values are
dicts (string keys, as in every record of this system), lists,
strings, numbers and the keyword literals; a parse succeeds only if
the whole text (modulo surrounding whitespace) is consumed. -/

/-- Dialect configuration for the literal parse routine. -/
structure ParseCfg where
  single : Bool
  pyKw : Bool
  trailingComma : Bool

/-- Python literal dialect (`ast.literal_eval`). -/
def pyCfg : ParseCfg := ⟨true, true, true⟩

/-- Strict JSON dialect (`json.loads`). -/
def jsonCfg : ParseCfg := ⟨false, false, false⟩

/-- Skip whitespace. -/
def skipWs (cs : List Char) : List Char := cs.dropWhile Char.isWhitespace

/-- Recognized escape sequences inside string literals (a model of the
stdlib escape handling; unrecognized escapes fail the parse). -/
def parseEscape (c : Char) : Option Char :=
  if c = 'n' then some '\n'
  else if c = 't' then some '\t'
  else if c = 'r' then some '\r'
  else if c = '\\' then some '\\'
  else if c = '\'' then some '\''
  else if c = '"' then some '"'
  else if c = '/' then some '/'
  else Option.none

/-- Parse the body of a string literal delimited by quote `q` (the
opening quote already consumed), returning the string and the rest. -/
def parseStringBody (q : Char) : Nat → List Char → Option (String × List Char)
  | 0, _ => Option.none
  | _, [] => Option.none
  | Nat.succ fuel, c :: rest =>
    if c = q then some ("", rest)
    else if c = '\\' then
      match rest with
      | [] => Option.none
      | e :: rest' =>
        match parseEscape e with
        | Option.none => Option.none
        | some ec =>
          match parseStringBody q fuel rest' with
          | Option.none => Option.none
          | some (s, r) => some (⟨ec :: s.data⟩, r)
    else
      match parseStringBody q fuel rest with
      | Option.none => Option.none
      | some (s, r) => some (⟨c :: s.data⟩, r)

/-- Numeric value of a digit list. -/
def digitsVal (ds : List Char) : ℚ :=
  ds.foldl (fun acc c => acc * 10 + ((c.toNat - '0'.toNat : ℕ) : ℚ)) 0

/-- Parse a numeric literal prefix: optional sign, digits, optional
fractional part. -/
def parseNumber (cs : List Char) : Option (ℚ × List Char) :=
  let (sign, cs₁) :=
    match cs with
    | '-' :: r => ((-1 : ℚ), r)
    | '+' :: r => ((1 : ℚ), r)
    | _ => ((1 : ℚ), cs)
  let ds := cs₁.takeWhile Char.isDigit
  let r₁ := cs₁.dropWhile Char.isDigit
  if ds.isEmpty then Option.none
  else
    match r₁ with
    | '.' :: fr =>
      let fds := fr.takeWhile Char.isDigit
      let r₂ := fr.dropWhile Char.isDigit
      some (sign * (digitsVal ds + digitsVal fds / (10 : ℚ) ^ fds.length), r₂)
    | _ => some (sign * digitsVal ds, r₁)

/-- Parse a dict key: a string literal in the configured dialect. -/
def parseKey (cfg : ParseCfg) (cs : List Char) : Option (String × List Char) :=
  match cs with
  | '"' :: rest => parseStringBody '"' rest.length rest
  | '\'' :: rest => if cfg.single then parseStringBody '\'' rest.length rest else Option.none
  | _ => Option.none

mutual

/-- Parse one value; `fuel` bounds the recursion depth. -/
def parseValue (cfg : ParseCfg) : Nat → List Char → Option (PyVal × List Char)
  | 0, _ => Option.none
  | Nat.succ fuel, cs =>
    match cs with
    | [] => Option.none
    | c :: rest =>
      if c = '"' then
        match parseStringBody '"' rest.length rest with
        | some (s, r) => some (.str s, r)
        | Option.none => Option.none
      else if cfg.single ∧ c = '\'' then
        match parseStringBody '\'' rest.length rest with
        | some (s, r) => some (.str s, r)
        | Option.none => Option.none
      else if c = '{' then parseDictRest cfg fuel (skipWs rest) []
      else if c = '[' then parseListRest cfg fuel (skipWs rest) []
      else if (if cfg.pyKw then "True".data else "true".data).isPrefixOf cs then
        some (.bool true, cs.drop 4)
      else if (if cfg.pyKw then "False".data else "false".data).isPrefixOf cs then
        some (.bool false, cs.drop 5)
      else if (if cfg.pyKw then "None".data else "null".data).isPrefixOf cs then
        some (.none, cs.drop 4)
      else
        match parseNumber cs with
        | some (q, r) => some (.num q, r)
        | Option.none => Option.none

/-- Parse the members of a dict after the opening brace (whitespace
already skipped), accumulating pairs with Python's overwrite-on-
duplicate insertion. -/
def parseDictRest (cfg : ParseCfg) : Nat → List Char → Record → Option (PyVal × List Char)
  | 0, _, _ => Option.none
  | Nat.succ fuel, cs, acc =>
    match cs with
    | '}' :: rest =>
        if acc.isEmpty ∨ cfg.trailingComma then some (.dict acc, rest) else Option.none
    | _ =>
      match parseKey cfg cs with
      | Option.none => Option.none
      | some (k, r₁) =>
        match skipWs r₁ with
        | ':' :: r₃ =>
          match parseValue cfg fuel (skipWs r₃) with
          | Option.none => Option.none
          | some (v, r₄) =>
            match skipWs r₄ with
            | ',' :: r₆ => parseDictRest cfg fuel (skipWs r₆) (insertPair acc k v)
            | '}' :: r₆ => some (.dict (insertPair acc k v), r₆)
            | _ => Option.none
        | _ => Option.none

/-- Parse the elements of a list after the opening bracket. -/
def parseListRest (cfg : ParseCfg) : Nat → List Char → List PyVal → Option (PyVal × List Char)
  | 0, _, _ => Option.none
  | Nat.succ fuel, cs, acc =>
    match cs with
    | ']' :: rest =>
        if acc.isEmpty ∨ cfg.trailingComma then some (.list acc, rest) else Option.none
    | _ =>
      match parseValue cfg fuel cs with
      | Option.none => Option.none
      | some (v, r₁) =>
        match skipWs r₁ with
        | ',' :: r₂ => parseListRest cfg fuel (skipWs r₂) (acc ++ [v])
        | ']' :: r₂ => some (.list (acc ++ [v]), r₂)
        | _ => Option.none

end

/-- Parse a whole text as a single literal: surrounding whitespace is
allowed, trailing non-whitespace text fails the parse. -/
def parseTop (cfg : ParseCfg) (cs : List Char) : Option PyVal :=
  let cs₁ := skipWs cs
  match parseValue cfg (cs.length + 1) cs₁ with
  | some (v, rest) => if (skipWs rest).isEmpty then some v else Option.none
  | Option.none => Option.none

/-- `ast.literal_eval` (model): parse as a Python literal. -/
def astLiteralEval (s : String) : Option PyVal := parseTop pyCfg s.data

/-- `json.loads` (model): parse as strict JSON. -/
def jsonLoads (s : String) : Option PyVal := parseTop jsonCfg s.data

end ExamSys

namespace ExamSys

/-! ## Record Extractor (model of `LLMClient._extract_python_dict`)

The ordered strategy chain of `llm_client.py`, lines 117-344.  All
text manipulation is done on `List Char` so that concrete runs reduce
in the kernel. -/

/-- Strip whitespace from both ends (`str.strip()`). -/
def stripChars (cs : List Char) : List Char :=
  ((cs.dropWhile Char.isWhitespace).reverse.dropWhile Char.isWhitespace).reverse

/-- Lower-case a character list (for the case-insensitive matches). -/
def charsLower (cs : List Char) : List Char := cs.map Char.toLower

/-- Index of the first occurrence of a (non-empty) pattern. -/
def findSubIdx? : List Char → List Char → Option Nat
  | [], pat => if pat.isEmpty then some 0 else Option.none
  | c :: rest, pat =>
      if pat.isPrefixOf (c :: rest) then some 0
      else (findSubIdx? rest pat).map (· + 1)

/-- Does the text contain the pattern (`pat in s`)? -/
def containsSub (cs pat : List Char) : Bool := (findSubIdx? cs pat).isSome

/-- Replace all non-overlapping occurrences, left to right
(`str.replace(old, new)`; `old` is non-empty in every use site). -/
def replaceSubAux (old new : List Char) : Nat → List Char → List Char
  | 0, cs => cs
  | Nat.succ fuel, cs =>
    if old.isPrefixOf cs ∧ ¬ old.isEmpty then new ++ replaceSubAux old new fuel (cs.drop old.length)
    else
      match cs with
      | [] => []
      | c :: rest => c :: replaceSubAux old new fuel rest

/-- `str.replace(old, new)`. -/
def replaceSub (cs old new : List Char) : List Char := replaceSubAux old new cs.length cs

/-- Split on a (non-empty) separator (`str.split(sep)`). -/
def splitOnSubAux (pat : List Char) : Nat → List Char → List Char → List (List Char)
  | 0, cs, acc => [acc.reverse ++ cs]
  | Nat.succ fuel, cs, acc =>
    if pat.isPrefixOf cs ∧ ¬ pat.isEmpty then
      acc.reverse :: splitOnSubAux pat fuel (cs.drop pat.length) []
    else
      match cs with
      | [] => [acc.reverse]
      | c :: rest => splitOnSubAux pat fuel rest (c :: acc.reverse).reverse

/-- `str.split(sep)`. -/
def splitOnSub (cs pat : List Char) : List (List Char) := splitOnSubAux pat cs.length cs []

/-- Last index of character `c` strictly before position `stop`
(`str.rfind(c, 0, stop)`). -/
def rfindCharBefore (cs : List Char) (c : Char) (stop : Nat) : Option Nat :=
  let pre := cs.take stop
  match pre.reverse.findIdx? (· = c) with
  | some j => some (pre.length - 1 - j)
  | Option.none => Option.none

/-- Method 0 (lines 133-143): strip any leading text before the first
opening brace.  The source tries two regexes in order — one that
requires a recognized introductory phrase before the brace and a
catch-all `(.*?)` — and both bind their capture group to the suffix of
the text starting at the first literal brace, so the combined effect
is exactly "drop everything before the first brace, if there is
one". -/
def stripIntroToBrace (cs : List Char) : List Char :=
  match cs.findIdx? (· = '{') with
  | some i => cs.drop i
  | Option.none => cs

/-- The contents of the paired fenced blocks: in the parts produced by
splitting on the fence marker, parts at odd index are inside a fence,
and a part is a completed block only if a closing marker follows it
(i.e. it is not the last part). -/
def oddBlocks : List (List Char) → List (List Char)
  | _ :: b :: c :: rest => b :: oddBlocks (c :: rest)
  | _ => []

/-- Strip the optional language tag and the leading whitespace that
the fenced-block regex consumes before its capture group
(` ```(?:python|json)?\s*\n?(.*?)``` `, case-insensitive). -/
def stripFenceTag (b : List Char) : List Char :=
  let b₁ :=
    if charsLower (b.take 6) = "python".data then b.drop 6
    else if charsLower (b.take 4) = "json".data then b.drop 4
    else b
  b₁.dropWhile Char.isWhitespace

/-- Longest element; on ties the first (`max(matches, key=len)`). -/
def maxByLen : List (List Char) → Option (List Char)
  | [] => Option.none
  | x :: xs => some (xs.foldl (fun best y => if y.length > best.length then y else best) x)

/-- The source's fallback when the fence regex found no paired block:
scan the lines for the first two fence-marker lines and slice between
them.  (A paired block always makes the regex succeed, so this path
runs only with a single unpaired marker, where `end_idx` keeps its
initial value `len(lines)` and the guard leaves the text unchanged;
it is modelled faithfully nonetheless.) -/
def fenceScan : List (List Char) → Nat → Nat → Nat × Option Nat
  | [], _, s => (s, Option.none)
  | l :: rest, i, s =>
    if containsSub l "```".data then
      if s = 0 then fenceScan rest (i + 1) (i + 1)
      else (s, some i)
    else fenceScan rest (i + 1) s

/-- Fence fallback slicing (lines 154-168). -/
def fenceFallback (cs : List Char) : List Char :=
  let lines := splitOnSub cs ['\n']
  match fenceScan lines 0 0 with
  | (s, some e) =>
      if 0 < s ∧ e < lines.length then
        stripChars (List.intercalate ['\n'] ((lines.take e).drop s))
      else cs
  | (_, Option.none) => cs

/-- Fenced-block extraction (lines 145-168): when fence markers are
present, prefer the longest completed block, else fall back to line
slicing. -/
def extractFences (cs : List Char) : List Char :=
  if containsSub cs "```".data then
    match maxByLen ((oddBlocks (splitOnSub cs "```".data)).map stripFenceTag) with
    | some b => stripChars b
    | Option.none => fenceFallback cs
  else cs

/-- Keep a parse result only if it is a dict
(`isinstance(result, dict)`). -/
def tryDict : Option PyVal → Option Record
  | some (.dict d) => some d
  | _ => Option.none

/-- A character that is not a brace. -/
def nonBrace (c : Char) : Bool := ¬ (c = '{' ∨ c = '}')

/-- The repeated-group tail of the method-3 regex
`\{[^{}]*(?:\{[^{}]*\}[^{}]*)*\}`: after the opening brace and a run
of non-braces (already in `acc`, reversed), greedily consume
`\{[^{}]*\}[^{}]*` groups until the closing brace. -/
def braceGroups : Nat → List Char → List Char → Option (List Char × List Char)
  | 0, _, _ => Option.none
  | Nat.succ fuel, acc, cs =>
    match cs with
    | '}' :: rest => some (('}' :: acc).reverse, rest)
    | '{' :: r₂ =>
      let b := r₂.takeWhile nonBrace
      (match r₂.dropWhile nonBrace with
       | '}' :: r₄ =>
         let c2 := r₄.takeWhile nonBrace
         braceGroups fuel (c2.reverse ++ ('}' :: (b.reverse ++ ('{' :: acc)))) (r₄.dropWhile nonBrace)
       | _ => Option.none)
    | _ => Option.none

/-- Match the method-3 regex at the start of `cs` (which must begin
with an opening brace), returning the matched span and the rest. -/
def braceMatchAt (cs : List Char) : Option (List Char × List Char) :=
  match cs with
  | '{' :: rest =>
      let a := rest.takeWhile nonBrace
      braceGroups (cs.length + 1) (a.reverse ++ ['{']) (rest.dropWhile nonBrace)
  | _ => Option.none

/-- All non-overlapping matches of the method-3 regex, scanning left
to right (`re.findall`). -/
def scanBraceMatches : Nat → List Char → List (List Char)
  | 0, _ => []
  | Nat.succ fuel, cs =>
    match cs with
    | [] => []
    | c :: rest =>
      if c = '{' then
        match braceMatchAt cs with
        | some (m, r) => m :: scanBraceMatches fuel r
        | Option.none => scanBraceMatches fuel rest
      else scanBraceMatches fuel rest

/-- All matches of the brace pattern in the text. -/
def braceMatches (cs : List Char) : List (List Char) := scanBraceMatches cs.length cs

/-- Stable insertion keeping longer elements first and equal lengths
in encounter order (`sorted(key=len, reverse=True)` is stable). -/
def insertByLenDesc (x : List Char) : List (List Char) → List (List Char)
  | [] => [x]
  | y :: ys => if x.length ≤ y.length then y :: insertByLenDesc x ys else x :: y :: ys

/-- Stable sort by length, descending. -/
def sortByLenDesc (xs : List (List Char)) : List (List Char) :=
  xs.foldl (fun acc x => insertByLenDesc x acc) []

/-- Try a Python-literal parse, then a JSON parse, keeping dicts. -/
def tryLitThenJson (cs : List Char) : Option Record :=
  (tryDict (astLiteralEval ⟨cs⟩)) <|> (tryDict (jsonLoads ⟨cs⟩))

/-- Method 3 (lines 186-206): brace-pattern matches, longest first,
first successful dict parse wins. -/
def method3 (cs : List Char) : Option Record :=
  (sortByLenDesc (braceMatches cs)).findSome? tryLitThenJson

/-- The quote/keyword rewriting of methods 4-6: single quotes to
double quotes, then `None`/`True`/`False` to `null`/`true`/`false`
(each a global `str.replace`). -/
def fixQuotes (cs : List Char) : List Char :=
  replaceSub (replaceSub (replaceSub (replaceSub cs ['\''] ['"'])
    "None".data "null".data) "True".data "true".data) "False".data "false".data

/-- Method 4 (lines 208-221): rewrite quotes/keywords, retry JSON. -/
def method4 (cs : List Char) : Option Record := tryDict (jsonLoads ⟨fixQuotes cs⟩)

/-- The brace-counting walk (lines 228-236 and 266-272): from an
opening brace, slice out the span where the brace counter first
returns to zero. -/
def braceSpanAux : Nat → Int → List Char → List Char → Option (List Char)
  | 0, _, _, _ => Option.none
  | Nat.succ fuel, depth, acc, cs =>
    match cs with
    | [] => Option.none
    | c :: rest =>
      let depth' : Int := if c = '{' then depth + 1 else if c = '}' then depth - 1 else depth
      if c = '}' ∧ depth' = 0 then some (c :: acc).reverse
      else braceSpanAux fuel depth' (c :: acc) rest

/-- Brace-counting span starting at the head of `cs`. -/
def braceSpan (cs : List Char) : Option (List Char) := braceSpanAux cs.length 0 [] cs

/-- Parse attempts on a brace-counted candidate: a Python-literal
parse, then a quote/keyword-fixed JSON parse (lines 237-249). -/
def tryLitThenFixedJson (d : List Char) : Option Record :=
  (tryDict (astLiteralEval ⟨d⟩)) <|> (tryDict (jsonLoads ⟨fixQuotes d⟩))

/-- Method 5 (lines 223-250): brace-count from the first opening
brace; only the first balanced span is attempted. -/
def method5 (cs : List Char) : Option Record :=
  match cs.findIdx? (· = '{') with
  | Option.none => Option.none
  | some i =>
    match braceSpan (cs.drop i) with
    | Option.none => Option.none
    | some d => tryLitThenFixedJson d

/-- The expected field-name tokens of method 6 (line 254). -/
def commonKeys : List String :=
  ["total_points_awarded", "total_points_possible", "percentage", "state", "explanation",
   "question_text", "background_info", "key_concepts", "rubric", "difficulty"]

/-- Does the method-6 key pattern `["\']?key["\']?\s*[:=]`
(case-insensitive) match at the start of `cs`? -/
def keyPatAt (key : List Char) (cs : List Char) : Bool :=
  let cs₁ :=
    match cs with
    | c :: rest => if c = '"' ∨ c = '\'' then rest else cs
    | [] => []
  (charsLower (cs₁.take key.length) == charsLower key) &&
    (let cs₂ := cs₁.drop key.length
     let cs₃ :=
       match cs₂ with
       | c :: rest => if c = '"' ∨ c = '\'' then rest else cs₂
       | [] => []
     match cs₃.dropWhile Char.isWhitespace with
     | c :: _ => c = ':' || c = '='
     | [] => false)

/-- Position of the first match of the method-6 key pattern. -/
def findKeyPatAux (key : List Char) : List Char → Nat → Option Nat
  | [], _ => Option.none
  | c :: rest, i =>
      if keyPatAt key (c :: rest) then some i else findKeyPatAux key rest (i + 1)

/-- Method 6 (lines 252-287): at the first listed key whose pattern
occurs in the text, brace-count from the nearest preceding opening
brace and try the two parses; the loop breaks after the first found
key whether or not a parse succeeded. -/
def method6 (cs : List Char) : Option Record :=
  match commonKeys.findSome? (fun k => findKeyPatAux k.data cs 0) with
  | Option.none => Option.none
  | some i =>
    match rfindCharBefore cs '{' i with
    | Option.none => Option.none
    | some bp =>
      match braceSpan (cs.drop bp) with
      | Option.none => Option.none
      | some d => tryLitThenFixedJson d

/-- The instruction-template fragments stripped from the sentinel's
raw-response preview (lines 296-301). -/
def promptFragments : List String :=
  [" and end with the closing brace",
   "Start your response directly with the opening brace",
   "Do not use markdown code blocks",
   "CRITICAL:"]

/-- One cleanup step (lines 302-308): when the fragment occurs at a
positive index, truncate the preview before it and strip. -/
def cleanFragment (p : List Char) (frag : List Char) : List Char :=
  match findSubIdx? p frag with
  | some idx => if 0 < idx then stripChars (p.take idx) else p
  | Option.none => p

/-- The bounded raw-response preview of the sentinel (lines 292-308):
the first 1000 characters with leaked prompt fragments stripped. -/
def cleanPreview (original : List Char) : List Char :=
  promptFragments.foldl (fun p f => cleanFragment p f.data) (original.take 1000)

/-- The sentinel error record (lines 330-344). -/
def sentinelRecord (original : String) : Record :=
  [("error", .str "Could not parse LLM response as dictionary. The AI returned an invalid format."),
   ("raw_response", .str ⟨cleanPreview original.data⟩),
   ("total_points_awarded", .num 0),
   ("total_points_possible", .num 100),
   ("percentage", .num 0),
   ("state", .str "Error"),
   ("explanation", .dict
     [("overall_feedback", .str "Error: Could not parse AI response. The AI may have returned an invalid format. Please try submitting your response again."),
      ("criterion_grades", .list []),
      ("strengths", .list []),
      ("weaknesses", .list [.str "Unable to parse AI response - format error"]),
      ("suggestions", .list [.str "Please try resubmitting your response",
                             .str "If the problem persists, contact support"])])]

/-- The shared preprocessing: strip surrounding whitespace, strip the
preamble before the first brace (method 0), extract fenced blocks. -/
def preprocess (original : String) : List Char :=
  extractFences (stripIntroToBrace (stripChars original.data))

/-- The ordered strategy chain: methods 1-6 on the preprocessed text;
the first strategy producing a dict wins. -/
def strategyChain (original : String) : Option Record :=
  let t := preprocess original
  (tryDict (astLiteralEval ⟨t⟩)) <|> (tryDict (jsonLoads ⟨t⟩)) <|>
    method3 t <|> method4 t <|> method5 t <|> method6 t

/-- `LLMClient._extract_python_dict`: the strategy chain with the
sentinel record as the total-failure fallback.  Total by
construction — every strategy is a pure function into `Option` and
the fallback always produces a record. -/
def extractPythonDict (original : String) : Record :=
  match strategyChain original with
  | some d => d
  | Option.none => sentinelRecord original

end ExamSys

namespace ExamSys

/-! ## Domain model (`models.py`)

The pydantic entities, with floats as rationals and timestamps as
naturals.  `points_per_criterion` (a `Dict[str, float]`) is an
association list with the same first-match lookup as parsed records. -/

/-- `GradingRubric`. -/
structure GradingRubric where
  criteria : List String
  points_per_criterion : List (String × ℚ)
  total_points : ℚ
  required_elements : List String
deriving Repr, DecidableEq

/-- `points_per_criterion.get(criterion, 0.0)`. -/
def rubricPoints (pcs : List (String × ℚ)) (c : String) : ℚ :=
  match pcs with
  | [] => 0
  | (k, v) :: rest => if k = c then v else rubricPoints rest c

/-- `DomainInformation`. -/
structure DomainInformation where
  background_info : String
  key_concepts : List String
  context : String
deriving Repr, DecidableEq

/-- `ExamQuestion`. -/
structure ExamQuestion where
  question_id : String
  question_text : String
  rubric : GradingRubric
  domain_info : DomainInformation
  created_at : Nat
  domain : String
  difficulty : Option String
  difficulty_score : Option ℚ
deriving Repr, DecidableEq

/-- `StudentResponse`. -/
structure StudentResponse where
  question_id : String
  response_text : String
  time_spent_seconds : ℚ
  submitted_at : Nat
deriving Repr, DecidableEq

/-- `CriterionGrade`. -/
structure CriterionGrade where
  criterion : String
  points_awarded : ℚ
  max_points : ℚ
  explanation : String
  satisfied : Bool
deriving Repr, DecidableEq

/-- `GradeExplanation`. -/
structure GradeExplanation where
  overall_feedback : String
  criterion_grades : List CriterionGrade
  strengths : List String
  weaknesses : List String
  suggestions : List String
deriving Repr, DecidableEq

/-- `GradeResult`. -/
structure GradeResult where
  question_id : String
  total_points_awarded : ℚ
  total_points_possible : ℚ
  percentage : ℚ
  explanation : GradeExplanation
  graded_at : Nat
  state : String
deriving Repr, DecidableEq

/-- `ExamSession`. -/
structure ExamSession where
  session_id : String
  student_id : String
  questions : List ExamQuestion
  responses : List StudentResponse
  grades : List GradeResult
  started_at : Nat
  completed_at : Option Nat
deriving Repr, DecidableEq

end ExamSys

namespace ExamSys

/-! ## Grade Reconciler (model of `Grader.grade_response`, `grader.py`)

`gradeFromRecord` covers lines 89-190: the reconciliation of an
already-extracted grading record against the question's rubric.
`gradeResponse` adds the outer `try/except ValueError` around the LLM
call (lines 69-87): a raised parsing `ValueError` from the client
layer is downgraded to an `"Error"`-state result.  A `.error` result
of `gradeFromRecord` is Python raising an uncaught exception
(`TypeError` from arithmetic on a non-numeric field, or a pydantic
`ValidationError` at entity construction). -/

/-- The error-state result built when the LLM client raised a parsing
`ValueError` (lines 73-87). -/
def errorParseGradeResult (question : ExamQuestion) (e : String) (now : Nat) : GradeResult :=
  { question_id := question.question_id
    total_points_awarded := 0
    total_points_possible := question.rubric.total_points
    percentage := 0
    explanation :=
      { overall_feedback := "Unable to parse AI grading response: " ++ e ++
          ". Please try submitting again or contact support if the issue persists."
        criterion_grades := []
        strengths := []
        weaknesses := ["Unable to parse AI grading response - format error"]
        suggestions := ["Please try resubmitting your response",
                        "If the problem persists, contact support"] }
    graded_at := now
    state := "Error" }

/-- One iteration of the criterion-grade loop (lines 125-136): a
non-mapping entry is silently skipped (`continue`); a mapping entry's
fields go through the pydantic coercions of `CriterionGrade` and the
grade is appended. -/
def cgStep (acc : List CriterionGrade) (cg : PyVal) : Except String (List CriterionGrade) :=
  match cg with
  | .dict d => do
    let cr ← pydStrE (pyGetD d "criterion" (.str ""))
    let pa ← pydFloatE (pyGetD d "points_awarded" (.num 0))
    let mp ← pydFloatE (pyGetD d "max_points" (.num 0))
    let ex ← pydStrE (pyGetD d "explanation" (.str ""))
    let sat ← pydBoolE (pyGetD d "satisfied" (.bool false))
    pure (acc ++ [{ criterion := cr, points_awarded := pa, max_points := mp,
                    explanation := ex, satisfied := sat }])
  | _ => pure acc

/-- Lines 119-136: build the criterion grades supplied by the
generator.  The loop body runs only when the supplied value is a
non-empty list (`if llm_criterion_grades and isinstance(..., list)`). -/
def buildLLMCriterionGrades (v : PyVal) : Except String (List CriterionGrade) :=
  match v with
  | .list l => if l.isEmpty then .ok [] else l.foldlM cgStep []
  | _ => .ok []

/-- One iteration of the backfill loop (lines 144-158): distribute
the reported total proportionally to the criterion's rubric-defined
maximum, dividing only when the rubric total is positive; satisfied
at the 70% threshold. -/
def backfillStep (question : ExamQuestion) (r : Record) (acc : List CriterionGrade)
    (criterion : String) : Except String (List CriterionGrade) :=
  (if question.rubric.total_points > 0 then
     pyNumE (pyGetD r "total_points_awarded" (.num 0)) >>= fun ta =>
       pure (ta / question.rubric.total_points *
         rubricPoints question.rubric.points_per_criterion criterion)
   else pure 0) >>= fun awarded_pts =>
  pure (acc ++ [{ criterion := criterion, points_awarded := awarded_pts,
                  max_points := rubricPoints question.rubric.points_per_criterion criterion,
                  explanation := "Grading details not available from AI response",
                  satisfied := awarded_pts ≥
                    rubricPoints question.rubric.points_per_criterion criterion * (7 / 10) }])

/-- Lines 138-158: when no usable criterion grades came from the
generator and the rubric defines criteria, synthesize one entry per
rubric criterion by proportional distribution. -/
def backfillCriterionGrades (question : ExamQuestion) (r : Record) :
    Except String (List CriterionGrade) :=
  question.rubric.criteria.foldlM (backfillStep question r) []

/-- The criterion grades finally used (lines 138-139): the backfill
runs exactly when the generator-supplied list came out empty while
the rubric defines criteria. -/
def chooseCriterionGrades (question : ExamQuestion) (r : Record) (cgs₀ : List CriterionGrade) :
    Except String (List CriterionGrade) :=
  if cgs₀.isEmpty ∧ ¬ question.rubric.criteria.isEmpty then
    backfillCriterionGrades question r
  else pure cgs₀

/-- Lines 169-177: the reported percentage, recomputed from the
reported total and the rubric's (authoritative) possible total when
the rubric total is positive and the reported percentage is zero or
off by more than one point. -/
def computePct (r : Record) (tpp : ℚ) : Except String PyVal :=
  let tpa := pyGetD r "total_points_awarded" (.num 0)
  let pct := pyGetD r "percentage" (.num 0)
  if tpp > 0 then
    if pyEqZero pct then
      pyNumE tpa >>= fun ta => pure (.num (ta / tpp * 100))
    else
      pyNumE pct >>= fun p =>
        pyNumE tpa >>= fun ta =>
          if |p - ta / tpp * 100| > 1 then pure (.num (ta / tpp * 100)) else pure pct
  else pure pct

/-- Lines 89-190 of `Grader.grade_response`: reconcile an extracted
grading record against the question. -/
def gradeFromRecord (question : ExamQuestion) (r : Record) (now : Nat) :
    Except String GradeResult :=
  if hasKey r "error" then do
    let fb ← pydStrE (pyGetD r "error" (.str "Error processing response"))
    pure { question_id := question.question_id
           total_points_awarded := 0
           total_points_possible := question.rubric.total_points
           percentage := 0
           explanation :=
             { overall_feedback := fb
               criterion_grades := []
               strengths := []
               weaknesses := ["Unable to parse AI grading response"]
               suggestions := ["Please try again or contact support"] }
           graded_at := now
           state := "Error" }
  else do
    let explanation_data : Record :=
      match pyGetD r "explanation" (.dict []) with
      | .dict d => d
      | _ => []
    let cgs₀ ← buildLLMCriterionGrades (pyGetD explanation_data "criterion_grades" (.list []))
    let cgs ← chooseCriterionGrades question r cgs₀
    let overall_feedback ← pydStrE (pyGetD explanation_data "overall_feedback" (.str ""))
    let strengths ← pydStrListE (pyGetD explanation_data "strengths" (.list []))
    let weaknesses ← pydStrListE (pyGetD explanation_data "weaknesses" (.list []))
    let suggestions ← pydStrListE (pyGetD explanation_data "suggestions" (.list []))
    let tpa := pyGetD r "total_points_awarded" (.num 0)
    let tpp := question.rubric.total_points
    let pct' ← computePct r tpp
    let tpaF ← pydFloatE tpa
    let pctF ← pydFloatE pct'
    let st ← pydStrE (pyGetD r "state" (.str "Needs Improvement"))
    pure { question_id := question.question_id
           total_points_awarded := tpaF
           total_points_possible := tpp
           percentage := pctF
           explanation :=
             { overall_feedback := overall_feedback
               criterion_grades := cgs
               strengths := strengths
               weaknesses := weaknesses
               suggestions := suggestions }
           graded_at := now
           state := st }

/-- `Grader.grade_response` end to end: the LLM-call outcome is either
a raised parsing `ValueError` (caught, lines 69-87) or an extracted
record handed to the reconciliation (lines 89-190). -/
def gradeResponse (question : ExamQuestion) (llmOutcome : Except String Record) (now : Nat) :
    Except String GradeResult :=
  match llmOutcome with
  | .error e => .ok (errorParseGradeResult question e now)
  | .ok r => gradeFromRecord question r now

/-- `LLMClient.grade_response`'s error check (lines 441-450): a record
carrying the extractor's sentinel `error` field is raised as a
`ValueError` before the grader sees it. -/
def clientGradeOutcome (r : Record) : Except String Record :=
  match pyGet r "error" with
  | some ev =>
      .error (match ev with
              | .str em =>
                  if containsSub (charsLower em.data) "closing brace".data ∨
                     containsSub em.data "' and end with".data then
                    "Could not parse AI grading response. The AI returned an invalid format. This may indicate: 1) API issue, 2) Unexpected response format, or 3) Network issue. Please try again."
                  else if ¬ containsSub em.data "Could not parse".data then
                    "Failed to parse AI grading response: " ++ em
                  else em
              | _ => "Failed to parse AI grading response")
  | Option.none => .ok r

end ExamSys

namespace ExamSys

/-! ## Question Assembler (model of `QuestionGenerator.generate_question`)

Lines 49-163 of `question_generator.py`: assembly of a validated
`ExamQuestion` from an extracted record.  A raised `ValueError` (the
semantic failures), `TypeError` (string operations on non-strings in
the error branch) or pydantic `ValidationError` is a `.error`. -/

/-- `[c.strip() for c in s.split(",") if c.strip()]`. -/
def splitCommaTrim (s : String) : List String :=
  ((splitOnSub s.data [',']).map stripChars).filterMap
    (fun cs => if cs.isEmpty then Option.none else some ⟨cs⟩)

/-- Python `str.capitalize()`: first character upper-cased, the rest
lower-cased. -/
def pyCapitalize (s : String) : String :=
  match s.data with
  | [] => ""
  | c :: rest => ⟨c.toUpper :: charsLower rest⟩

/-- A list-or-comma-separated-string field (`criteria`,
`required_elements`, `key_concepts`): strings are comma-split, lists
are kept as-is (their elements then go through the pydantic `str`
coercion), anything else becomes the empty list. -/
def listOrSplitField (v : PyVal) : Except String (List String) :=
  match v with
  | .str s => .ok (splitCommaTrim s)
  | .list l => l.mapM pydStrE
  | _ => .ok []

/-- `float(value)` guarded by `try/except (ValueError, TypeError)`:
numbers, bools and numeric strings convert, everything else yields
the fallback. -/
def pyFloatOr (v : PyVal) (fallback : ℚ) : ℚ :=
  (pydFloat? v).getD fallback

/-- Lines 118-127: normalize the difficulty score; a string first
drops the `/10` and `out of 10` unit suffixes; any failure falls back
to `None`. -/
def normalizeDifficultyScore (v : PyVal) : Option ℚ :=
  match v with
  | .none => Option.none
  | .str s =>
      parseFloat? ⟨stripChars (replaceSub (replaceSub s.data "/10".data [])
        "out of 10".data [])⟩
  | w => pydFloat? w

/-- Lines 129-135: normalize the difficulty label when it is a
string; `None` stays absent; any other type flows unchanged into the
`Optional[str]` pydantic field, which rejects it. -/
def normalizeDifficulty (v : PyVal) : Except String (Option String) :=
  match v with
  | .str s =>
      let c := pyCapitalize s.trim
      .ok (if c = "Easy" ∨ c = "Medium" ∨ c = "Hard" then some c else Option.none)
  | .none => .ok Option.none
  | _ => .error "ValidationError: difficulty is not a valid string"

/-- Lines 56-62: the record carries the extractor's sentinel error
field; the raised `ValueError`'s message surfaces the error text and,
when the raw-response preview is truthy, its first 200 characters.
(A non-string error or preview raises a `TypeError` at the string
operations instead.) -/
def questionErrorRaise (r : Record) : Except String ExamQuestion :=
  match pyGetD r "error" (.str "Unknown error from LLM") with
  | .str em =>
    if pyTruthy (pyGetD r "raw_response" (.str "")) then
      match pyGetD r "raw_response" (.str "") with
      | .str rs =>
          .error ("Failed to generate question: " ++ em ++ ". Response preview: " ++
            ⟨rs.data.take 200⟩)
      | _ => .error "TypeError: unsliceable raw_response"
    else .error ("Failed to generate question: " ++ em)
  | _ => .error "TypeError: error field is not a string"

/-- `QuestionGenerator.generate_question` from the extracted record
(lines 49-163).  `freshId` stands for the generated `uuid4` used when
no question id is supplied. -/
def generateQuestionFromRecord (domain : String) (question_id : Option String)
    (r : Record) (now : Nat) (freshId : String) : Except String ExamQuestion := do
  if hasKey r "error" then questionErrorRaise r
  else
    let background_info_v := pyGetD r "background_info" (.str "")
    let key_concepts_v := pyGetD r "key_concepts" (.list [])
    let context_v := pyGetD r "context" (.str "")
    let question_text_v := pyGetD r "question_text" (.str "")
    let difficulty_v := pyGetD r "difficulty" .none
    let difficulty_score_v := pyGetD r "difficulty_score" .none
    if ¬ pyTruthy question_text_v then
      .error "LLM response missing required field: question_text"
    else do
      let rubric_data : Record :=
        match pyGetD r "rubric" (.dict []) with
        | .dict d => d
        | _ => []
      let criteria ← listOrSplitField (pyGetD rubric_data "criteria" (.list []))
      let points_per_criterion : List (String × ℚ) :=
        match pyGetD rubric_data "points_per_criterion" (.dict []) with
        | .dict d => d.map (fun p => (p.1, pyFloatOr p.2 0))
        | _ => []
      let total_points : ℚ := pyFloatOr (pyGetD rubric_data "total_points" (.num 0)) 0
      let required_elements ← listOrSplitField (pyGetD rubric_data "required_elements" (.list []))
      let key_concepts ← listOrSplitField key_concepts_v
      let difficulty_score := normalizeDifficultyScore difficulty_score_v
      let difficulty ← normalizeDifficulty difficulty_v
      let background_info ← pydStrE background_info_v
      let context ← pydStrE context_v
      let question_text ← pydStrE question_text_v
      pure { question_id := question_id.getD freshId
             question_text := question_text
             rubric := { criteria := criteria
                         points_per_criterion := points_per_criterion
                         total_points := total_points
                         required_elements := required_elements }
             domain_info := { background_info := background_info
                              key_concepts := key_concepts
                              context := context }
             created_at := now
             domain := domain
             difficulty := difficulty
             difficulty_score := difficulty_score }

end ExamSys

namespace ExamSys

/-! ## Submission flow (model of `submit_response`, `main.py` lines 186-248)

The handler after the session/question lookups succeeded: the
response is appended first; then the grading call either returns a
`GradeResult` (appended, completion checked) or raises (converted to
an HTTP 500 — the handler exits before the completion check and
before any grade is appended). -/

/-- The JSON payload returned on success. -/
structure SubmitOk where
  total_points_awarded : ℚ
  total_points_possible : ℚ
  percentage : ℚ
  state : String
deriving Repr, DecidableEq

/-- The error-message rewording of the handler's `except` branches
(lines 223-234). -/
def submitErrorDetail (e : String) : String :=
  if containsSub (charsLower e.data) "parse".data ∨
     containsSub (charsLower e.data) "invalid format".data then
    "Error grading response: Failed to parse AI grading response. The AI may have returned an invalid format. Please try submitting your response again."
  else "Error grading response: " ++ e

/-- `submit_response` from the point where session and question were
found: append the response, grade, append the grade on success, set
the completion timestamp when the response count reaches the question
count. -/
def submitResponse (session : ExamSession) (resp : StudentResponse)
    (gradeOutcome : Except String GradeResult) (now : Nat) :
    ExamSession × Except String SubmitOk :=
  let session₁ := { session with responses := session.responses ++ [resp] }
  match gradeOutcome with
  | .error e => (session₁, .error (submitErrorDetail e))
  | .ok gr =>
    let session₂ := { session₁ with grades := session₁.grades ++ [gr] }
    let session₃ :=
      if session₂.responses.length = session₂.questions.length then
        { session₂ with completed_at := some now }
      else session₂
    (session₃, .ok { total_points_awarded := gr.total_points_awarded
                     total_points_possible := gr.total_points_possible
                     percentage := gr.percentage
                     state := gr.state })

end ExamSys

namespace ExamSys

/-! ## Well-typedness of records

The grader and assembler read record fields with permissive `.get`
defaults but perform raw arithmetic and pydantic construction on the
values, so a field of the wrong dynamic type raises (`TypeError` /
`ValidationError`).  These boolean predicates delimit the records on
which every such coercion succeeds; each constraint is exactly "the
coercion the code applies to this field succeeds when the field is
present". -/

/-- An optional field satisfies a constraint when present. -/
def wtOpt (v : Option PyVal) (p : PyVal → Bool) : Bool :=
  match v with
  | some w => p w
  | Option.none => true

/-- A value accepted by the pydantic `List[str]` coercion. -/
def isStrList : PyVal → Bool
  | .list l => l.all (fun v => (pydStr? v).isSome)
  | _ => false

/-- A generator-supplied criterion-grade entry whose fields all pass
the `CriterionGrade` coercions (non-mapping entries are skipped by the
grader, hence unconstrained). -/
def wtCgEntry : PyVal → Bool
  | .dict d =>
      wtOpt (pyGet d "criterion") (fun v => (pydStr? v).isSome) &&
      wtOpt (pyGet d "points_awarded") (fun v => (pydFloat? v).isSome) &&
      wtOpt (pyGet d "max_points") (fun v => (pydFloat? v).isSome) &&
      wtOpt (pyGet d "explanation") (fun v => (pydStr? v).isSome) &&
      wtOpt (pyGet d "satisfied") (fun v => (pydBool? v).isSome)
  | _ => true

/-- A well-typed `explanation` sub-record (non-mappings are replaced
by the empty mapping, hence unconstrained). -/
def wtExplanation : PyVal → Bool
  | .dict d =>
      wtOpt (pyGet d "overall_feedback") (fun v => (pydStr? v).isSome) &&
      wtOpt (pyGet d "criterion_grades") (fun v =>
        match v with
        | .list l => l.all wtCgEntry
        | _ => true) &&
      wtOpt (pyGet d "strengths") isStrList &&
      wtOpt (pyGet d "weaknesses") isStrList &&
      wtOpt (pyGet d "suggestions") isStrList
  | _ => true

/-- A grading record on which the reconciliation performs no failing
coercion: numeric totals are numbers (the code divides by and
subtracts them raw), strings are strings, string lists are string
lists. -/
def wellTypedGradeRecord (r : Record) : Bool :=
  wtOpt (pyGet r "error") (fun v => (pydStr? v).isSome) &&
  wtOpt (pyGet r "explanation") wtExplanation &&
  wtOpt (pyGet r "total_points_awarded") (fun v => (pyNum? v).isSome) &&
  wtOpt (pyGet r "percentage") (fun v => (pyNum? v).isSome) &&
  wtOpt (pyGet r "state") (fun v => (pydStr? v).isSome)

/-- A value accepted by the list-or-comma-split normalization
followed by the pydantic `List[str]` element coercion. -/
def wtListOrStr : PyVal → Bool
  | .list l => l.all (fun x => (pydStr? x).isSome)
  | _ => true

/-- A well-typed `rubric` sub-record. -/
def wtRubric : PyVal → Bool
  | .dict d =>
      wtOpt (pyGet d "criteria") wtListOrStr &&
      wtOpt (pyGet d "required_elements") wtListOrStr
  | _ => true

/-- A question record on which assembly performs no failing coercion
outside the two semantic validation failures. -/
def wellTypedQuestionRecord (r : Record) : Bool :=
  wtOpt (pyGet r "question_text") (fun v => (pydStr? v).isSome) &&
  wtOpt (pyGet r "background_info") (fun v => (pydStr? v).isSome) &&
  wtOpt (pyGet r "context") (fun v => (pydStr? v).isSome) &&
  wtOpt (pyGet r "key_concepts") wtListOrStr &&
  wtOpt (pyGet r "difficulty") (fun v =>
    match v with
    | .str _ => true
    | .none => true
    | _ => false) &&
  wtOpt (pyGet r "rubric") wtRubric

end ExamSys

namespace ExamSys

/-! ## Concrete fixtures used by witnesses and counterexamples -/

/-- An empty domain-information block. -/
def trivInfo : DomainInformation := { background_info := "", key_concepts := [], context := "" }

/-- The spec's backfill example question: rubric criteria `A` (10
points) and `B` (20 points), total 30. -/
def qAB : ExamQuestion :=
  { question_id := "q-ab"
    question_text := "Explain."
    rubric := { criteria := ["A", "B"]
                points_per_criterion := [("A", 10), ("B", 20)]
                total_points := 30
                required_elements := [] }
    domain_info := trivInfo
    created_at := 0
    domain := "CS"
    difficulty := Option.none
    difficulty_score := Option.none }

/-- A grading record reporting a total of 15 and no per-criterion
breakdown. -/
def rec15 : Record := [("total_points_awarded", .num 15)]

/-- A question with an empty criterion list and rubric total 100. -/
def q100 : ExamQuestion :=
  { question_id := "q-100"
    question_text := "Explain."
    rubric := { criteria := []
                points_per_criterion := []
                total_points := 100
                required_elements := [] }
    domain_info := trivInfo
    created_at := 0
    domain := "CS"
    difficulty := Option.none
    difficulty_score := Option.none }

/-- A grading record whose reported total exceeds the rubric total
and whose reported percentage is within the 1-point tolerance of the
recomputed (out-of-range) percentage. -/
def recOver : Record := [("total_points_awarded", .num 200), ("percentage", .num (401 / 2))]

/-- A grading record whose `total_points_awarded` is a numeric
string, as the generator may legally emit inside a parsed literal. -/
def recStrTotal : Record := [("total_points_awarded", .str "15")]

/-- A student response to the `qAB` question. -/
def respAB : StudentResponse :=
  { question_id := "q-ab", response_text := "my answer", time_spent_seconds := 30, submitted_at := 5 }

/-- A second question (same rubric, different id). -/
def qCD : ExamQuestion :=
  { question_id := "q-cd"
    question_text := "Describe."
    rubric := qAB.rubric
    domain_info := trivInfo
    created_at := 0
    domain := "CS"
    difficulty := Option.none
    difficulty_score := Option.none }

/-- A session over `qAB` and `qCD` where `qAB` has already been
answered and graded once and `qCD` never answered. -/
def sessionOneAnswered : ExamSession :=
  { session_id := "s1"
    student_id := "stu"
    questions := [qAB, qCD]
    responses := [respAB]
    grades := [errorParseGradeResult qAB "x" 1]
    started_at := 0
    completed_at := Option.none }

/-- A fresh session over just `qAB`. -/
def sessionFresh : ExamSession :=
  { session_id := "s0"
    student_id := "stu"
    questions := [qAB]
    responses := []
    grades := []
    started_at := 0
    completed_at := Option.none }

end ExamSys

namespace ExamSys

/-! ## Plumbing lemmas for `Except` computations -/

/-- Inversion of a successful bind. -/
lemma except_bind_ok {α β : Type} {x : Except String α} {f : α → Except String β} {b : β}
    (h : (x >>= f) = .ok b) : ∃ a, x = .ok a ∧ f a = .ok b := by
  cases x with
  | error e => simp [Bind.bind, Except.bind] at h
  | ok a => exact ⟨a, rfl, by simpa [Bind.bind, Except.bind] using h⟩

/-- Inversion of a successful `pure`. -/
lemma except_pure_ok {α : Type} {a b : α} (h : (pure a : Except String α) = .ok b) : a = b := by
  simpa [pure, Except.pure] using h

/-- Arithmetic-numeric values are accepted by the pydantic float
coercion. -/
lemma pyNum?_isSome_pydFloat? {v : PyVal} (h : (pyNum? v).isSome = true) :
    (pydFloat? v).isSome = true := by
  cases v <;> simp [pyNum?, pydFloat?] at h ⊢

/-- A value accepted by arithmetic coercion is accepted, with the
same value, by the pydantic float coercion. -/
lemma pyNumE_pydFloatE {v : PyVal} {a : ℚ} (h : pyNumE v = .ok a) : pydFloatE v = .ok a := by
  cases v <;> simp [pyNumE, pyNum?, pydFloatE, pydFloat?] at h ⊢ <;> exact h

end ExamSys

namespace ExamSys

/-! ## The reconciliation invariants -/

/-- Any successfully reconciled result carries the rubric's
authoritative total and, when that total is positive, a percentage
within one point of the recomputed ratio. -/
lemma gradeFromRecord_ok_inv (q : ExamQuestion) (r : Record) (now : Nat) (gr : GradeResult)
    (h : gradeFromRecord q r now = .ok gr) :
    gr.total_points_possible = q.rubric.total_points ∧
      (0 < q.rubric.total_points →
        |gr.percentage - gr.total_points_awarded / q.rubric.total_points * 100| ≤ 1) := by
  unfold gradeFromRecord at h
  by_cases herr : hasKey r "error" = true
  · rw [if_pos herr] at h
    obtain ⟨fb, -, hpure⟩ := except_bind_ok h
    have hgr := except_pure_ok hpure
    subst hgr
    exact ⟨rfl, fun _ => by norm_num⟩
  · rw [if_neg herr] at h
    obtain ⟨cgs₀, -, h⟩ := except_bind_ok h
    obtain ⟨cgs, -, h⟩ := except_bind_ok h
    obtain ⟨ofb, -, h⟩ := except_bind_ok h
    obtain ⟨sg, -, h⟩ := except_bind_ok h
    obtain ⟨wk, -, h⟩ := except_bind_ok h
    obtain ⟨sug, -, h⟩ := except_bind_ok h
    obtain ⟨pct', hpct', h⟩ := except_bind_ok h
    obtain ⟨tpaF, htpaF, h⟩ := except_bind_ok h
    obtain ⟨pctF, hpctF, h⟩ := except_bind_ok h
    obtain ⟨st, -, h⟩ := except_bind_ok h
    have hgr := except_pure_ok h
    subst hgr
    refine ⟨rfl, fun htp => ?_⟩
    show |pctF - tpaF / q.rubric.total_points * 100| ≤ 1
    unfold computePct at hpct'
    rw [if_pos htp] at hpct'
    by_cases hz : pyEqZero (pyGetD r "percentage" (.num 0)) = true
    · rw [if_pos hz] at hpct'
      obtain ⟨ta, hta, hp⟩ := except_bind_ok hpct'
      have hpe := except_pure_ok hp
      subst hpe
      have htpa' : pydFloatE (pyGetD r "total_points_awarded" (.num 0)) = .ok ta :=
        pyNumE_pydFloatE hta
      rw [htpa'] at htpaF
      injection htpaF with htpaF
      subst htpaF
      simp only [pydFloatE, pydFloat?] at hpctF
      injection hpctF with hpctF
      subst hpctF
      simp
    · rw [if_neg hz] at hpct'
      obtain ⟨p, hpnum, hpct'⟩ := except_bind_ok hpct'
      obtain ⟨ta, hta, hpct'⟩ := except_bind_ok hpct'
      have htpa' : pydFloatE (pyGetD r "total_points_awarded" (.num 0)) = .ok ta :=
        pyNumE_pydFloatE hta
      rw [htpa'] at htpaF
      injection htpaF with htpaF
      subst htpaF
      by_cases habs : |p - ta / q.rubric.total_points * 100| > 1
      · rw [if_pos habs] at hpct'
        have hpe := except_pure_ok hpct'
        subst hpe
        simp only [pydFloatE, pydFloat?] at hpctF
        injection hpctF with hpctF
        subst hpctF
        simp
      · rw [if_neg habs] at hpct'
        have hpe := except_pure_ok hpct'
        subst hpe
        have hpF : pydFloatE (pyGetD r "percentage" (.num 0)) = .ok p :=
          pyNumE_pydFloatE hpnum
        rw [hpF] at hpctF
        injection hpctF with hpctF
        subst hpctF
        exact le_of_not_lt habs

end ExamSys

namespace ExamSys

/-! ## Success of the coercions on well-typed data -/

/-- A present-field constraint transfers to the defaulted lookup when
the default also satisfies it. -/
lemma wtOpt_getD {r : Record} {k : String} {p : PyVal → Bool} {dflt : PyVal}
    (h : wtOpt (pyGet r k) p = true) (hd : p dflt = true) : p (pyGetD r k dflt) = true := by
  unfold pyGetD
  cases hk : pyGet r k with
  | none => simpa using hd
  | some w => simpa [wtOpt, hk] using h

/-- `pydStrE` succeeds exactly on `pydStr?` success. -/
lemma pydStrE_ok {v : PyVal} (h : (pydStr? v).isSome = true) : ∃ s, pydStrE v = .ok s := by
  unfold pydStrE
  cases hv : pydStr? v with
  | none => rw [hv] at h; simp at h
  | some s => exact ⟨s, rfl⟩

/-- `pydFloatE` succeeds exactly on `pydFloat?` success. -/
lemma pydFloatE_ok {v : PyVal} (h : (pydFloat? v).isSome = true) : ∃ q, pydFloatE v = .ok q := by
  unfold pydFloatE
  cases hv : pydFloat? v with
  | none => rw [hv] at h; simp at h
  | some q => exact ⟨q, rfl⟩

/-- `pydBoolE` succeeds exactly on `pydBool?` success. -/
lemma pydBoolE_ok {v : PyVal} (h : (pydBool? v).isSome = true) : ∃ b, pydBoolE v = .ok b := by
  unfold pydBoolE
  cases hv : pydBool? v with
  | none => rw [hv] at h; simp at h
  | some b => exact ⟨b, rfl⟩

/-- `pyNumE` succeeds exactly on `pyNum?` success. -/
lemma pyNumE_ok {v : PyVal} (h : (pyNum? v).isSome = true) : ∃ q, pyNumE v = .ok q := by
  unfold pyNumE
  cases hv : pyNum? v with
  | none => rw [hv] at h; simp at h
  | some q => exact ⟨q, rfl⟩

/-- Mapping the string coercion over a list of coercible values
succeeds. -/
lemma mapM_pydStrE_ok {l : List PyVal} (h : l.all (fun v => (pydStr? v).isSome) = true) :
    ∃ xs, l.mapM pydStrE = .ok xs := by
  induction l with
  | nil => exact ⟨[], rfl⟩
  | cons a l ih =>
    simp only [List.all_cons, Bool.and_eq_true] at h
    obtain ⟨s, hs⟩ := pydStrE_ok h.1
    obtain ⟨xs, hxs⟩ := ih h.2
    refine ⟨s :: xs, ?_⟩
    rw [List.mapM_cons, hs, hxs]
    rfl

/-- The `List[str]` coercion succeeds on well-typed values. -/
lemma pydStrListE_ok {v : PyVal} (h : isStrList v = true) : ∃ xs, pydStrListE v = .ok xs := by
  cases v with
  | list l =>
    simp only [isStrList] at h
    exact mapM_pydStrE_ok h
  | none => simp [isStrList] at h
  | bool b => simp [isStrList] at h
  | num q => simp [isStrList] at h
  | str s => simp [isStrList] at h
  | dict d => simp [isStrList] at h

end ExamSys

namespace ExamSys

/-- A well-typed (or skipped) criterion-grade entry step succeeds. -/
lemma cgStep_ok (acc : List CriterionGrade) {cg : PyVal} (h : wtCgEntry cg = true) :
    ∃ out, cgStep acc cg = .ok out := by
  cases cg with
  | dict d =>
    simp only [wtCgEntry, Bool.and_eq_true] at h
    obtain ⟨⟨⟨⟨h₁, h₂⟩, h₃⟩, h₄⟩, h₅⟩ := h
    have hd₁ : (pydStr? (PyVal.str "")).isSome = true := rfl
    have hd₂ : (pydFloat? (PyVal.num 0)).isSome = true := rfl
    have hd₃ : (pydBool? (PyVal.bool false)).isSome = true := rfl
    obtain ⟨cr, hcr⟩ := pydStrE_ok (wtOpt_getD h₁ hd₁)
    obtain ⟨pa, hpa⟩ := pydFloatE_ok (wtOpt_getD h₂ hd₂)
    obtain ⟨mp, hmp⟩ := pydFloatE_ok (wtOpt_getD h₃ hd₂)
    obtain ⟨ex, hex⟩ := pydStrE_ok (wtOpt_getD h₄ hd₁)
    obtain ⟨sat, hsat⟩ := pydBoolE_ok (wtOpt_getD h₅ hd₃)
    refine ⟨acc ++ [⟨cr, pa, mp, ex, sat⟩], ?_⟩
    simp only [cgStep, hcr, hpa, hmp, hex, hsat, Bind.bind, Except.bind, pure, Except.pure]
  | none => exact ⟨acc, rfl⟩
  | bool b => exact ⟨acc, rfl⟩
  | num q => exact ⟨acc, rfl⟩
  | str s => exact ⟨acc, rfl⟩
  | list l => exact ⟨acc, rfl⟩

/-- The criterion-grade fold succeeds on a list of well-typed (or
skipped) entries. -/
lemma cgFold_ok (l : List PyVal) :
    ∀ acc, l.all wtCgEntry = true → ∃ out, l.foldlM cgStep acc = .ok out := by
  induction l with
  | nil => exact fun acc _ => ⟨acc, rfl⟩
  | cons a l ih =>
    intro acc h
    simp only [List.all_cons, Bool.and_eq_true] at h
    obtain ⟨out₁, hout₁⟩ := cgStep_ok acc h.1
    obtain ⟨out, hout⟩ := ih out₁ h.2
    refine ⟨out, ?_⟩
    rw [List.foldlM_cons, hout₁]
    simpa [Bind.bind, Except.bind] using hout

/-- Building the generator-supplied criterion grades succeeds on a
well-typed value. -/
lemma buildLLMCriterionGrades_ok {v : PyVal}
    (h : (match v with
          | PyVal.list l => l.all wtCgEntry
          | _ => true) = true) :
    ∃ cgs, buildLLMCriterionGrades v = .ok cgs := by
  cases v with
  | list l =>
    have heq : buildLLMCriterionGrades (.list l) =
        if l.isEmpty then .ok [] else l.foldlM cgStep [] := rfl
    rw [heq]
    by_cases hl : l.isEmpty = true
    · rw [if_pos hl]; exact ⟨[], rfl⟩
    · rw [if_neg hl]; exact cgFold_ok l [] h
  | none => exact ⟨[], rfl⟩
  | bool b => exact ⟨[], rfl⟩
  | num q => exact ⟨[], rfl⟩
  | str s => exact ⟨[], rfl⟩
  | dict d => exact ⟨[], rfl⟩

/-- A backfill step succeeds when the reported total is numeric. -/
lemma backfillStep_ok (q : ExamQuestion) (r : Record)
    (h : (pyNum? (pyGetD r "total_points_awarded" (.num 0))).isSome = true)
    (acc : List CriterionGrade) (c : String) :
    ∃ out, backfillStep q r acc c = .ok out := by
  obtain ⟨ta, hta⟩ := pyNumE_ok h
  unfold backfillStep
  by_cases htp : q.rubric.total_points > 0
  · rw [if_pos htp, hta]
    exact ⟨_, rfl⟩
  · rw [if_neg htp]
    exact ⟨_, rfl⟩

/-- The backfill fold succeeds when the reported total is numeric. -/
lemma backfillCriterionGrades_ok (q : ExamQuestion) (r : Record)
    (h : (pyNum? (pyGetD r "total_points_awarded" (.num 0))).isSome = true) :
    ∃ out, backfillCriterionGrades q r = .ok out := by
  unfold backfillCriterionGrades
  suffices hall : ∀ (l : List String) (acc : List CriterionGrade),
      ∃ out, l.foldlM (backfillStep q r) acc = .ok out from hall _ []
  intro l
  induction l with
  | nil => exact fun acc => ⟨acc, rfl⟩
  | cons a l ih =>
    intro acc
    obtain ⟨out₁, hout₁⟩ := backfillStep_ok q r h acc a
    obtain ⟨out, hout⟩ := ih out₁
    refine ⟨out, ?_⟩
    rw [List.foldlM_cons, hout₁]
    simpa [Bind.bind, Except.bind] using hout

/-- Choosing the final criterion grades succeeds when the reported
total is numeric. -/
lemma chooseCriterionGrades_ok (q : ExamQuestion) (r : Record) (cgs₀ : List CriterionGrade)
    (h : (pyNum? (pyGetD r "total_points_awarded" (.num 0))).isSome = true) :
    ∃ out, chooseCriterionGrades q r cgs₀ = .ok out := by
  unfold chooseCriterionGrades
  by_cases hc : cgs₀.isEmpty ∧ ¬ q.rubric.criteria.isEmpty
  · rw [if_pos hc]; exact backfillCriterionGrades_ok q r h
  · rw [if_neg hc]; exact ⟨cgs₀, rfl⟩

/-- The percentage computation succeeds when the reported total and
percentage are numeric. -/
lemma computePct_ok (r : Record) (tpp : ℚ)
    (hta : (pyNum? (pyGetD r "total_points_awarded" (.num 0))).isSome = true)
    (hp : (pyNum? (pyGetD r "percentage" (.num 0))).isSome = true) :
    ∃ out, computePct r tpp = .ok out ∧ (pyNum? out).isSome = true := by
  obtain ⟨ta, hta'⟩ := pyNumE_ok hta
  obtain ⟨p, hp'⟩ := pyNumE_ok hp
  unfold computePct
  by_cases htp : tpp > 0
  · rw [if_pos htp]
    by_cases hz : pyEqZero (pyGetD r "percentage" (.num 0)) = true
    · rw [if_pos hz, hta']
      exact ⟨_, rfl, rfl⟩
    · rw [if_neg hz, hp']
      simp only [Bind.bind, Except.bind]
      rw [hta']
      simp only [Bind.bind, Except.bind]
      by_cases habs : |p - ta / tpp * 100| > 1
      · rw [if_pos habs]; exact ⟨_, rfl, rfl⟩
      · rw [if_neg habs]; exact ⟨_, rfl, hp⟩
  · rw [if_neg htp]
    exact ⟨_, rfl, hp⟩

end ExamSys

namespace ExamSys

/-- On a record with the sentinel `error` field whose value is a
string, reconciliation returns exactly the zero-point error-state
result echoing that string. -/
lemma gradeFromRecord_error_shape (q : ExamQuestion) (r : Record) (now : Nat) {ev : PyVal}
    {fb : String} (hk : pyGet r "error" = some ev) (hs : pydStr? ev = some fb) :
    gradeFromRecord q r now = .ok
      { question_id := q.question_id
        total_points_awarded := 0
        total_points_possible := q.rubric.total_points
        percentage := 0
        explanation :=
          { overall_feedback := fb
            criterion_grades := []
            strengths := []
            weaknesses := ["Unable to parse AI grading response"]
            suggestions := ["Please try again or contact support"] }
        graded_at := now
        state := "Error" } := by
  have hk' : hasKey r "error" = true := by simp [hasKey, hk]
  have hget : pyGetD r "error" (.str "Error processing response") = ev := by
    simp [pyGetD, hk]
  have hfb : pydStrE (pyGetD r "error" (.str "Error processing response")) = .ok fb := by
    rw [hget]; simp [pydStrE, hs]
  unfold gradeFromRecord
  rw [if_pos hk', hfb]
  rfl

/-- Reconciliation succeeds on every well-typed grading record. -/
lemma gradeFromRecord_wt_ok (q : ExamQuestion) (r : Record) (now : Nat)
    (hwt : wellTypedGradeRecord r = true) :
    ∃ gr, gradeFromRecord q r now = .ok gr := by
  simp only [wellTypedGradeRecord, Bool.and_eq_true] at hwt
  obtain ⟨⟨⟨⟨herr, hexpl⟩, htpa⟩, hpct⟩, hst⟩ := hwt
  have hdStrE : (pydStr? (PyVal.str "Error processing response")).isSome = true := rfl
  have hdStr : (pydStr? (PyVal.str "")).isSome = true := rfl
  have hdStrN : (pydStr? (PyVal.str "Needs Improvement")).isSome = true := rfl
  have hdNum : (pyNum? (PyVal.num 0)).isSome = true := rfl
  unfold gradeFromRecord
  by_cases hk : hasKey r "error" = true
  · rw [if_pos hk]
    obtain ⟨fb, hfb⟩ := pydStrE_ok (wtOpt_getD herr hdStrE)
    rw [hfb]
    exact ⟨_, rfl⟩
  · rw [if_neg hk]
    have htpa' : (pyNum? (pyGetD r "total_points_awarded" (.num 0))).isSome = true :=
      wtOpt_getD htpa hdNum
    have hpct' : (pyNum? (pyGetD r "percentage" (.num 0))).isSome = true :=
      wtOpt_getD hpct hdNum
    set ed : Record := (match pyGetD r "explanation" (PyVal.dict []) with
      | PyVal.dict d => d
      | _ => []) with hed_def
    -- the explanation sub-record is well typed whatever shape the
    -- `explanation` field took
    have hed : wtExplanation (PyVal.dict ed) = true := by
      rw [hed_def]
      unfold pyGetD
      cases he : pyGet r "explanation" with
      | none => rfl
      | some w =>
        have := by simpa [wtOpt, he] using hexpl
        cases w <;> first | rfl | simpa using this
    simp only [wtExplanation, Bool.and_eq_true] at hed
    obtain ⟨⟨⟨⟨hofb, hcg⟩, hsg⟩, hwk⟩, hsug⟩ := hed
    have hdSL : isStrList (PyVal.list []) = true := rfl
    have hcgv : (match pyGetD ed "criterion_grades" (.list []) with
                 | PyVal.list l => l.all wtCgEntry
                 | _ => true) = true := by
      cases hk₂ : pyGet ed "criterion_grades" with
      | none => simp [pyGetD, hk₂]
      | some w =>
        rw [pyGetD, hk₂, Option.getD_some]
        simpa [wtOpt, hk₂] using hcg
    obtain ⟨cgs₀, hcgs₀⟩ := buildLLMCriterionGrades_ok hcgv
    obtain ⟨cgs, hcgs⟩ := chooseCriterionGrades_ok q r cgs₀ htpa'
    obtain ⟨ofb, hofb'⟩ := pydStrE_ok (wtOpt_getD hofb hdStr)
    obtain ⟨sg, hsg'⟩ := pydStrListE_ok (wtOpt_getD hsg hdSL)
    obtain ⟨wk, hwk'⟩ := pydStrListE_ok (wtOpt_getD hwk hdSL)
    obtain ⟨sug, hsug'⟩ := pydStrListE_ok (wtOpt_getD hsug hdSL)
    obtain ⟨pv, hpv, hpvnum⟩ := computePct_ok r q.rubric.total_points htpa' hpct'
    obtain ⟨pvn, hpvn⟩ := pyNumE_ok htpa'
    have htpaFx : ∃ x, pydFloatE (pyGetD r "total_points_awarded" (.num 0)) = .ok x :=
      ⟨pvn, pyNumE_pydFloatE hpvn⟩
    obtain ⟨tpaF, htpaF⟩ := htpaFx
    obtain ⟨pctF, hpctF⟩ := pydFloatE_ok (pyNum?_isSome_pydFloat? hpvnum)
    obtain ⟨st, hst'⟩ := pydStrE_ok (wtOpt_getD hst hdStrN)
    refine ⟨{ question_id := q.question_id, total_points_awarded := tpaF,
              total_points_possible := q.rubric.total_points, percentage := pctF,
              explanation := { overall_feedback := ofb, criterion_grades := cgs,
                               strengths := sg, weaknesses := wk, suggestions := sug },
              graded_at := now, state := st }, ?_⟩
    simp only [hcgs₀, hcgs, hofb', hsg', hwk', hsug', hpv, htpaF, hpctF, hst',
      Bind.bind, Except.bind]
    rfl

end ExamSys

namespace ExamSys

/-- The reconciled result for `qAB` and `rec15` (computed value used
by several witnesses). -/
def grAB15 : GradeResult :=
  { question_id := "q-ab"
    total_points_awarded := 15
    total_points_possible := 30
    percentage := 50
    explanation :=
      { overall_feedback := ""
        criterion_grades :=
          [{ criterion := "A", points_awarded := 5, max_points := 10,
             explanation := "Grading details not available from AI response", satisfied := false },
           { criterion := "B", points_awarded := 10, max_points := 20,
             explanation := "Grading details not available from AI response", satisfied := false }]
        strengths := []
        weaknesses := []
        suggestions := [] }
    graded_at := 0
    state := "Needs Improvement" }

/-- The reconciled result for `q100` and `recOver`. -/
def grOver : GradeResult :=
  { question_id := "q-100"
    total_points_awarded := 200
    total_points_possible := 100
    percentage := 401 / 2
    explanation :=
      { overall_feedback := ""
        criterion_grades := []
        strengths := []
        weaknesses := []
        suggestions := [] }
    graded_at := 0
    state := "Needs Improvement" }

/-- C1: for every Question and every generator grading record (any
mapping, whatever number its own total-points-possible field holds),
and likewise on the caught-`ValueError` error path, any `GradeResult`
the Reconciler produces satisfies
`total_points_possible = rubric.total_points`. -/
theorem c1_total_points_possible_authoritative (q : ExamQuestion)
    (oc : Except String Record) (now : Nat) (gr : GradeResult)
    (h : gradeResponse q oc now = .ok gr) :
    gr.total_points_possible = q.rubric.total_points := by
  cases oc with
  | error e =>
    have hgr : errorParseGradeResult q e now = gr := by
      simpa [gradeResponse] using h
    subst hgr
    rfl
  | ok r => exact (gradeFromRecord_ok_inv q r now gr h).1

/-- Witness for C1 at a concrete question and record. -/
theorem c1_total_points_possible_authoritative_witness :
    gradeResponse qAB (.ok rec15) 0 = .ok grAB15 ∧
      grAB15.total_points_possible = qAB.rubric.total_points :=
  ⟨by with_unfolding_all rfl,
    c1_total_points_possible_authoritative qAB (.ok rec15) 0 grAB15
      (by with_unfolding_all rfl)⟩

/-- Counterexample for C3 as stated: on the record
`{"total_points_awarded": "15"}` (a mapping whose total is a numeric
string) and a rubric with criteria, the reconciliation raises a
`TypeError` at the proportional division instead of returning a
GradeResult. -/
theorem c3_counterexample :
    gradeFromRecord qAB recStrTotal 0 =
      .error "TypeError: unsupported operand type for arithmetic" := rfl

/-- C3 (amended): on well-typed grading records the Reconciler never
raises, and a record carrying the sentinel `error` field yields an
`"Error"`-state result with zero points and the fixed retry
suggestions. -/
theorem c3_reconciler_never_raises_well_typed (q : ExamQuestion) (r : Record) (now : Nat)
    (hwt : wellTypedGradeRecord r = true) :
    (∃ gr, gradeFromRecord q r now = .ok gr) ∧
    (hasKey r "error" = true →
      ∃ gr, gradeFromRecord q r now = .ok gr ∧ gr.state = "Error" ∧
        gr.total_points_awarded = 0 ∧ gr.percentage = 0 ∧
        gr.explanation.suggestions = ["Please try again or contact support"]) := by
  refine ⟨gradeFromRecord_wt_ok q r now hwt, fun hk => ?_⟩
  obtain ⟨ev, hev⟩ := Option.isSome_iff_exists.mp hk
  have herr : wtOpt (pyGet r "error") (fun v => (pydStr? v).isSome) = true := by
    simp only [wellTypedGradeRecord, Bool.and_eq_true] at hwt
    exact hwt.1.1.1.1
  have hev' : (pydStr? ev).isSome = true := by simpa [wtOpt, hev] using herr
  obtain ⟨fb, hfb⟩ := Option.isSome_iff_exists.mp hev'
  exact ⟨_, gradeFromRecord_error_shape q r now hev hfb, rfl, rfl, rfl, rfl⟩

/-- Witness for C3 at the extractor's sentinel record. -/
theorem c3_reconciler_never_raises_well_typed_witness :
    wellTypedGradeRecord (sentinelRecord "I cannot help with that.") = true ∧
    hasKey (sentinelRecord "I cannot help with that.") "error" = true ∧
    (∃ gr, gradeFromRecord qAB (sentinelRecord "I cannot help with that.") 0 = .ok gr ∧
      gr.state = "Error" ∧ gr.total_points_awarded = 0 ∧ gr.percentage = 0 ∧
      gr.explanation.suggestions = ["Please try again or contact support"]) :=
  ⟨rfl, rfl,
    (c3_reconciler_never_raises_well_typed qAB (sentinelRecord "I cannot help with that.") 0
      rfl).2 rfl⟩

/-- Counterexample for C4 as stated: with rubric total 100, reported
total 200 and reported percentage 200.5, the reconciled percentage is
200.5 — outside `[0, 100]` and more than 0.01 away from
`awarded/possible*100 = 200`. -/
theorem c4_counterexample :
    gradeFromRecord q100 recOver 0 = .ok grOver ∧
      ¬ (0 ≤ grOver.percentage ∧ grOver.percentage ≤ 100 ∧
         |grOver.percentage -
            grOver.total_points_awarded / grOver.total_points_possible * 100| ≤ 1 / 100) := by
  refine ⟨by with_unfolding_all rfl, fun hcl => ?_⟩
  have h2 := hcl.2.1
  norm_num [grOver] at h2

/-- C4 (amended): every reconciled GradeResult with a positive rubric
total has its percentage within 1 point (the code's tolerance, not
0.01) of `awarded/possible*100`; no [0,100] clamping is performed. -/
theorem c4_percentage_within_tolerance (q : ExamQuestion) (oc : Except String Record)
    (now : Nat) (gr : GradeResult) (h : gradeResponse q oc now = .ok gr)
    (htp : 0 < q.rubric.total_points) :
    |gr.percentage - gr.total_points_awarded / gr.total_points_possible * 100| ≤ 1 := by
  cases oc with
  | error e =>
    have hgr : errorParseGradeResult q e now = gr := by
      simpa [gradeResponse] using h
    subst hgr
    simp [errorParseGradeResult]
  | ok r =>
    obtain ⟨h1, h2⟩ := gradeFromRecord_ok_inv q r now gr h
    rw [h1]
    exact h2 htp

/-- Witness for C4 at a concrete question and record. -/
theorem c4_percentage_within_tolerance_witness :
    gradeResponse q100 (.ok recOver) 0 = .ok grOver ∧ (0 : ℚ) < q100.rubric.total_points ∧
      |grOver.percentage - grOver.total_points_awarded / grOver.total_points_possible * 100| ≤ 1 :=
  ⟨by with_unfolding_all rfl, by norm_num [q100],
    c4_percentage_within_tolerance q100 (.ok recOver) 0 grOver
      (by with_unfolding_all rfl) (by norm_num [q100])⟩

/-- C5: with rubric criteria `{A: 10, B: 20}`, total 30, a reported
total of 15 and no per-criterion breakdown, the Reconciler
synthesizes exactly `A: 5.0` and `B: 10.0`, each satisfied exactly
when the synthesized award reaches 70% of its maximum (here neither
does). -/
theorem c5_proportional_backfill :
    gradeFromRecord qAB rec15 0 = .ok grAB15 ∧
    grAB15.explanation.criterion_grades =
      [{ criterion := "A", points_awarded := 5, max_points := 10,
         explanation := "Grading details not available from AI response", satisfied := false },
       { criterion := "B", points_awarded := 10, max_points := 20,
         explanation := "Grading details not available from AI response", satisfied := false }] ∧
    grAB15.explanation.criterion_grades.all
      (fun cg => cg.satisfied = decide (cg.points_awarded ≥ cg.max_points * (7 / 10))) = true :=
  ⟨by with_unfolding_all rfl, rfl, by with_unfolding_all decide⟩

end ExamSys

namespace ExamSys

/-! ## Extractor claims -/

/-- C2: for every input string the Extractor returns a record — the
winning strategy's dict when some strategy succeeds, else the
sentinel error record.  Totality (never raising) is by construction:
every strategy is a pure `Option`-valued function, mirroring the
`try/except` wrapping of every fallible parse in the source. -/
theorem c2_extractor_total (s : String) :
    extractPythonDict s = sentinelRecord s ∨
      ∃ d, strategyChain s = some d ∧ extractPythonDict s = d := by
  unfold extractPythonDict
  cases h : strategyChain s with
  | none => exact Or.inl rfl
  | some d => exact Or.inr ⟨d, rfl, rfl⟩

/-- Stripping shortens. -/
lemma stripChars_length_le (cs : List Char) : (stripChars cs).length ≤ cs.length := by
  unfold stripChars
  calc ((cs.dropWhile Char.isWhitespace).reverse.dropWhile Char.isWhitespace).reverse.length
      = ((cs.dropWhile Char.isWhitespace).reverse.dropWhile Char.isWhitespace).length := by
        rw [List.length_reverse]
    _ ≤ (cs.dropWhile Char.isWhitespace).reverse.length :=
          (List.dropWhile_sublist _).length_le
    _ = (cs.dropWhile Char.isWhitespace).length := by rw [List.length_reverse]
    _ ≤ cs.length := (List.dropWhile_sublist _).length_le

/-- One preview-cleanup step shortens. -/
lemma cleanFragment_length_le (p f : List Char) : (cleanFragment p f).length ≤ p.length := by
  unfold cleanFragment
  cases findSubIdx? p f with
  | none => exact le_refl _
  | some idx =>
    show (if 0 < idx then stripChars (p.take idx) else p).length ≤ p.length
    by_cases hidx : 0 < idx
    · rw [if_pos hidx]
      calc (stripChars (p.take idx)).length ≤ (p.take idx).length := stripChars_length_le _
        _ ≤ p.length := by rw [List.length_take]; exact min_le_right _ _
    · rw [if_neg hidx]

/-- The sentinel's raw-response preview is bounded by 1000
characters. -/
lemma cleanPreview_length_le (cs : List Char) : (cleanPreview cs).length ≤ 1000 := by
  unfold cleanPreview
  simp only [promptFragments, List.foldl]
  calc (cleanFragment (cleanFragment (cleanFragment (cleanFragment (cs.take 1000)
            " and end with the closing brace".data)
            "Start your response directly with the opening brace".data)
            "Do not use markdown code blocks".data)
          "CRITICAL:".data).length
      ≤ (cleanFragment (cleanFragment (cleanFragment (cs.take 1000)
            " and end with the closing brace".data)
            "Start your response directly with the opening brace".data)
            "Do not use markdown code blocks".data).length := cleanFragment_length_le _ _
    _ ≤ (cleanFragment (cleanFragment (cs.take 1000)
            " and end with the closing brace".data)
            "Start your response directly with the opening brace".data).length :=
          cleanFragment_length_le _ _
    _ ≤ (cleanFragment (cs.take 1000) " and end with the closing brace".data).length :=
          cleanFragment_length_le _ _
    _ ≤ (cs.take 1000).length := cleanFragment_length_le _ _
    _ ≤ 1000 := by rw [List.length_take]; exact min_le_left _ _

/-- Counterexample for C6 as stated: on the unparseable text the
sentinel carries no default for `question_text` (nor the other
fields only the question assembly looks up), although question
assembly is a downstream consumer that looks these fields up. -/
theorem c6_counterexample :
    hasKey (extractPythonDict "I cannot help with that.") "question_text" = false ∧
    hasKey (extractPythonDict "I cannot help with that.") "background_info" = false ∧
    hasKey (extractPythonDict "I cannot help with that.") "rubric" = false := ⟨rfl, rfl, rfl⟩

/-- C6 (amended): whenever every strategy fails, the Extractor's
result is the sentinel record, which carries the `error` marker, a
raw-response preview of at most 1000 characters, and a default for
every field the grading consumer looks up (total points, percentage,
state, and the full explanation block).  The question-assembly-only
fields are not included; that consumer checks the error marker first
and reads fields through defaulted lookups. -/
theorem c6_sentinel_shape (s : String) (h : strategyChain s = Option.none) :
    extractPythonDict s = sentinelRecord s ∧
    hasKey (extractPythonDict s) "error" = true ∧
    (∃ p, pyGet (extractPythonDict s) "raw_response" = some (.str p) ∧ p.length ≤ 1000) ∧
    hasKey (extractPythonDict s) "total_points_awarded" = true ∧
    hasKey (extractPythonDict s) "total_points_possible" = true ∧
    hasKey (extractPythonDict s) "percentage" = true ∧
    hasKey (extractPythonDict s) "state" = true ∧
    (∃ e, pyGet (extractPythonDict s) "explanation" = some (.dict e) ∧
      hasKey e "overall_feedback" = true ∧ hasKey e "criterion_grades" = true ∧
      hasKey e "strengths" = true ∧ hasKey e "weaknesses" = true ∧
      hasKey e "suggestions" = true) := by
  have hx : extractPythonDict s = sentinelRecord s := by
    unfold extractPythonDict
    rw [h]
  rw [hx]
  refine ⟨rfl, rfl, ⟨⟨cleanPreview s.data⟩, ?_, ?_⟩, rfl, rfl, rfl, rfl, ?_⟩
  · rfl
  · show (String.mk (cleanPreview s.data)).length ≤ 1000
    have : (String.mk (cleanPreview s.data)).length = (cleanPreview s.data).length := rfl
    rw [this]
    exact cleanPreview_length_le s.data
  · exact ⟨_, rfl, rfl, rfl, rfl, rfl, rfl⟩

/-- Witness for C6 at the spec's unparseable example text. -/
theorem c6_sentinel_shape_witness :
    strategyChain "I cannot help with that." = Option.none ∧
    extractPythonDict "I cannot help with that." =
      sentinelRecord "I cannot help with that." ∧
    hasKey (extractPythonDict "I cannot help with that.") "error" = true :=
  ⟨rfl, (c6_sentinel_shape "I cannot help with that." rfl).1,
    (c6_sentinel_shape "I cannot help with that." rfl).2.1⟩

end ExamSys

namespace ExamSys

/-! ## Question Assembler claims -/

/-- The empty pattern occurs in any text. -/
lemma containsSub_nilpat (cs : List Char) : containsSub cs [] = true := by
  cases cs <;> simp [containsSub, findSubIdx?]

/-- A pattern occurs in any text it ends. -/
lemma containsSub_append (a pat : List Char) : containsSub (a ++ pat) pat = true := by
  induction a with
  | nil =>
    cases pat with
    | nil => simp [containsSub, findSubIdx?]
    | cons c rest =>
      simp only [List.nil_append, containsSub, findSubIdx?]
      rw [if_pos (List.isPrefixOf_iff_prefix.mpr (List.prefix_refl _))]
      rfl
  | cons c a ih =>
    simp only [List.cons_append, containsSub, findSubIdx?, List.append_eq]
    by_cases hp : pat.isPrefixOf (c :: (a ++ pat)) = true
    · rw [if_pos hp]; rfl
    · rw [if_neg hp]
      simpa [containsSub] using ih

/-- The error branch of question assembly always raises. -/
lemma questionErrorRaise_error (r : Record) : ∃ e, questionErrorRaise r = .error e := by
  unfold questionErrorRaise
  repeat' split
  all_goals exact ⟨_, rfl⟩

/-- The list-or-comma-split normalization succeeds on well-typed
values. -/
lemma listOrSplitField_ok {v : PyVal} (h : wtListOrStr v = true) :
    ∃ xs, listOrSplitField v = .ok xs := by
  cases v with
  | list l =>
    simp only [wtListOrStr] at h
    exact mapM_pydStrE_ok h
  | str s => exact ⟨_, rfl⟩
  | none => exact ⟨[], rfl⟩
  | bool b => exact ⟨[], rfl⟩
  | num q => exact ⟨[], rfl⟩
  | dict d => exact ⟨[], rfl⟩

/-- Difficulty normalization succeeds on a string or absent value. -/
lemma normalizeDifficulty_ok {v : PyVal}
    (h : (match v with
          | PyVal.str _ => true
          | PyVal.none => true
          | _ => false) = true) :
    ∃ o, normalizeDifficulty v = .ok o := by
  cases v with
  | str s => exact ⟨_, rfl⟩
  | none => exact ⟨_, rfl⟩
  | bool b => simp at h
  | num q => simp at h
  | list l => simp at h
  | dict d => simp at h

/-- Assembly succeeds on well-typed records with no error marker and
truthy question text. -/
lemma generateQuestion_wt_ok (d : String) (qid : Option String) (r : Record) (now : Nat)
    (fid : String) (hwt : wellTypedQuestionRecord r = true)
    (hk : hasKey r "error" = false)
    (hq : pyTruthy (pyGetD r "question_text" (.str "")) = true) :
    ∃ qn, generateQuestionFromRecord d qid r now fid = .ok qn := by
  simp only [wellTypedQuestionRecord, Bool.and_eq_true] at hwt
  obtain ⟨⟨⟨⟨⟨hqt, hbg⟩, hcx⟩, hkc⟩, hdf⟩, hrb⟩ := hwt
  have hdStr : (pydStr? (PyVal.str "")).isSome = true := rfl
  have hdL : wtListOrStr (PyVal.list []) = true := rfl
  unfold generateQuestionFromRecord
  rw [if_neg (by simp [hk])]
  rw [if_neg (by simp [hq])]
  set rd : Record := (match pyGetD r "rubric" (PyVal.dict []) with
    | PyVal.dict d => d
    | _ => []) with hrd_def
  have hrdwt : wtRubric (PyVal.dict rd) = true := by
    rw [hrd_def]
    unfold pyGetD
    cases he : pyGet r "rubric" with
    | none => rfl
    | some w =>
      have := by simpa [wtOpt, he] using hrb
      cases w <;> first | rfl | simpa using this
  simp only [wtRubric, Bool.and_eq_true] at hrdwt
  obtain ⟨hcrit, hreq⟩ := hrdwt
  obtain ⟨cr, hcr⟩ := listOrSplitField_ok (wtOpt_getD hcrit hdL)
  obtain ⟨req, hreq'⟩ := listOrSplitField_ok (wtOpt_getD hreq hdL)
  obtain ⟨kc, hkc'⟩ := listOrSplitField_ok (wtOpt_getD hkc hdL)
  have hdfv : (match pyGetD r "difficulty" PyVal.none with
               | PyVal.str _ => true
               | PyVal.none => true
               | _ => false) = true := by
    unfold pyGetD
    cases he : pyGet r "difficulty" with
    | none => rfl
    | some w =>
      have := by simpa [wtOpt, he] using hdf
      cases w <;> simpa using this
  obtain ⟨df, hdf'⟩ := normalizeDifficulty_ok hdfv
  obtain ⟨bg, hbg'⟩ := pydStrE_ok (wtOpt_getD hbg hdStr)
  obtain ⟨cx, hcx'⟩ := pydStrE_ok (wtOpt_getD hcx hdStr)
  obtain ⟨qt, hqt'⟩ := pydStrE_ok (wtOpt_getD hqt hdStr)
  refine ⟨{ question_id := qid.getD fid, question_text := qt,
            rubric := { criteria := cr,
                        points_per_criterion :=
                          (match pyGetD rd "points_per_criterion" (PyVal.dict []) with
                           | PyVal.dict d => d.map (fun p => (p.1, pyFloatOr p.2 0))
                           | _ => []),
                        total_points := pyFloatOr (pyGetD rd "total_points" (PyVal.num 0)) 0,
                        required_elements := req },
            domain_info := { background_info := bg, key_concepts := kc, context := cx },
            created_at := now, domain := d, difficulty := df,
            difficulty_score := normalizeDifficultyScore (pyGetD r "difficulty_score" PyVal.none) },
    ?_⟩
  simp only [hcr, hreq', hkc', hdf', hbg', hcx', hqt', Bind.bind, Except.bind]
  rfl

end ExamSys

namespace ExamSys

/-- The message raised for a sentinel-shaped record: the error text,
with the preview appended when the preview is truthy. -/
lemma questionErrorRaise_shape (r : Record) (em p : String)
    (h1 : pyGetD r "error" (.str "Unknown error from LLM") = .str em)
    (h2 : pyGetD r "raw_response" (.str "") = .str p) :
    questionErrorRaise r = .error ("Failed to generate question: " ++ em ++
      (if p = "" then "" else ". Response preview: " ++ (⟨p.data.take 200⟩ : String))) := by
  simp only [questionErrorRaise, h1, h2, pyTruthy]
  by_cases hp : p = ""
  · simp [hp]
  · simp [hp, String.append_assoc]

/-- C7: the Question Assembler raises exactly on the two semantic
failures — the record carries the extractor's sentinel `error`
marker, or the question text is missing/empty — and on a sentinel
record the raised message contains the (truncated to 200 characters)
raw-response preview carried by the sentinel. -/
theorem c7_assembler_semantic_errors :
    (∀ (t d : String) (qid : Option String) (now : Nat) (fid : String),
      ∃ msg, generateQuestionFromRecord d qid (sentinelRecord t) now fid = .error msg ∧
        containsSub msg.data ((cleanPreview t.data).take 200) = true) ∧
    (∀ (d : String) (qid : Option String) (r : Record) (now : Nat) (fid : String),
      wellTypedQuestionRecord r = true →
        ((∃ e, generateQuestionFromRecord d qid r now fid = .error e) ↔
          (hasKey r "error" = true ∨
            pyTruthy (pyGetD r "question_text" (.str "")) = false))) := by
  constructor
  · intro t d qid now fid
    have hgen : generateQuestionFromRecord d qid (sentinelRecord t) now fid =
        questionErrorRaise (sentinelRecord t) := by
      unfold generateQuestionFromRecord
      rw [if_pos (show hasKey (sentinelRecord t) "error" = true from rfl)]
    have hshape := questionErrorRaise_shape (sentinelRecord t)
      "Could not parse LLM response as dictionary. The AI returned an invalid format."
      ⟨cleanPreview t.data⟩ rfl rfl
    refine ⟨_, by rw [hgen, hshape], ?_⟩
    by_cases hp : (⟨cleanPreview t.data⟩ : String) = ""
    · have hnil : cleanPreview t.data = [] := by
        have := congrArg String.data hp
        simpa using this
      rw [hnil]
      exact containsSub_nilpat _
    · rw [if_neg hp]
      have hdata : ("Failed to generate question: " ++
          "Could not parse LLM response as dictionary. The AI returned an invalid format." ++
          (". Response preview: " ++
            (⟨(⟨cleanPreview t.data⟩ : String).data.take 200⟩ : String))).data =
          ("Failed to generate question: " ++
          "Could not parse LLM response as dictionary. The AI returned an invalid format." ++
          ". Response preview: ").data ++ (cleanPreview t.data).take 200 := by
        simp [String.data_append]
      rw [hdata]
      exact containsSub_append _ _
  · intro d qid r now fid hwt
    constructor
    · rintro ⟨e, he⟩
      by_contra hcon
      push_neg at hcon
      obtain ⟨h1, h2⟩ := hcon
      have h1' : hasKey r "error" = false := by
        cases h : hasKey r "error" with
        | true => exact absurd h h1
        | false => rfl
      have h2' : pyTruthy (pyGetD r "question_text" (.str "")) = true := by
        cases h : pyTruthy (pyGetD r "question_text" (.str "")) with
        | true => rfl
        | false => exact absurd h h2
      obtain ⟨qn, hqn⟩ := generateQuestion_wt_ok d qid r now fid hwt h1' h2'
      rw [hqn] at he
      exact Except.noConfusion he
    · intro hor
      by_cases hk : hasKey r "error" = true
      · have hgen : generateQuestionFromRecord d qid r now fid = questionErrorRaise r := by
          unfold generateQuestionFromRecord
          rw [if_pos hk]
        rw [hgen]
        exact questionErrorRaise_error r
      · cases hor with
        | inl h => exact absurd h hk
        | inr hq =>
          refine ⟨"LLM response missing required field: question_text", ?_⟩
          unfold generateQuestionFromRecord
          rw [if_neg hk]
          rw [if_pos (by simp [hq])]

/-- Witness for C7: the sentinel case at the spec's unparseable text,
and the empty-question-text case at a concrete well-typed record. -/
theorem c7_assembler_semantic_errors_witness :
    (∃ msg, generateQuestionFromRecord "CS" Option.none
        (sentinelRecord "I cannot help with that.") 0 "fid" = .error msg ∧
      containsSub msg.data ((cleanPreview "I cannot help with that.".data).take 200) = true) ∧
    wellTypedQuestionRecord [("question_text", PyVal.str "")] = true ∧
    (∃ e, generateQuestionFromRecord "CS" Option.none
        [("question_text", PyVal.str "")] 0 "fid" = .error e) :=
  ⟨c7_assembler_semantic_errors.1 "I cannot help with that." "CS" Option.none 0 "fid",
    rfl,
    (c7_assembler_semantic_errors.2 "CS" Option.none [("question_text", PyVal.str "")] 0 "fid"
      rfl).mpr (Or.inr rfl)⟩

end ExamSys

namespace ExamSys

/-! ## Submission-flow claims -/

/-- Counterexample for C8 as stated: when the grader raises (here the
`TypeError` on a string-valued reported total), the handler records
the response but appends no grade and returns an HTTP error — the
session is left with a response and no corresponding grade. -/
theorem c8_counterexample :
    (submitResponse sessionFresh respAB (gradeResponse qAB (.ok recStrTotal) 0) 5).1.responses =
      [respAB] ∧
    (submitResponse sessionFresh respAB (gradeResponse qAB (.ok recStrTotal) 0) 5).1.grades = [] ∧
    (∃ e, (submitResponse sessionFresh respAB (gradeResponse qAB (.ok recStrTotal) 0) 5).2 =
      .error e) :=
  ⟨rfl, rfl, ⟨_, rfl⟩⟩

/-- On a successful grading outcome the handler appends the response
and the grade and returns the grade payload. -/
lemma submitResponse_ok_parts (session : ExamSession) (resp : StudentResponse)
    (gr : GradeResult) (now : Nat) :
    (submitResponse session resp (.ok gr) now).1.responses = session.responses ++ [resp] ∧
    (submitResponse session resp (.ok gr) now).1.grades = session.grades ++ [gr] ∧
    (submitResponse session resp (.ok gr) now).2 =
      .ok ⟨gr.total_points_awarded, gr.total_points_possible, gr.percentage, gr.state⟩ := by
  refine ⟨?_, ?_, ?_⟩ <;>
    · simp only [submitResponse]
      try (split <;> rfl)

/-- C8 (amended): when grading fails at the parse level — the LLM
client raised a `ValueError`, which the grader downgrades to an
`"Error"`-state result — the exam flow is not blocked: the response
and an Error-state grade carrying retry suggestions are both
appended, and the handler returns success.  (When the grader itself
raises, the response is recorded with no grade; see the
counterexample.) -/
theorem c8_parse_failure_nonblocking (session : ExamSession) (resp : StudentResponse)
    (q : ExamQuestion) (e : String) (now : Nat) :
    (submitResponse session resp (gradeResponse q (.error e) now) now).1.responses =
      session.responses ++ [resp] ∧
    (submitResponse session resp (gradeResponse q (.error e) now) now).1.grades =
      session.grades ++ [errorParseGradeResult q e now] ∧
    (errorParseGradeResult q e now).state = "Error" ∧
    (errorParseGradeResult q e now).explanation.suggestions ≠ [] ∧
    (∃ ok, (submitResponse session resp (gradeResponse q (.error e) now) now).2 = .ok ok) := by
  have hgr : gradeResponse q (.error e) now = .ok (errorParseGradeResult q e now) := rfl
  rw [hgr]
  obtain ⟨h1, h2, h3⟩ := submitResponse_ok_parts session resp (errorParseGradeResult q e now) now
  exact ⟨h1, h2, rfl, by simp [errorParseGradeResult], ⟨_, h3⟩⟩

/-- Counterexample for C9 as stated: submitting a second response to
the already-answered question of a two-question session sets the
completion timestamp although the second question has no response. -/
theorem c9_counterexample :
    ((submitResponse sessionOneAnswered respAB (.ok (errorParseGradeResult qAB "x" 1)) 9).1
      ).completed_at = some 9 ∧
    ((submitResponse sessionOneAnswered respAB (.ok (errorParseGradeResult qAB "x" 1)) 9).1
      ).questions.any
      (fun q =>
        ((submitResponse sessionOneAnswered respAB (.ok (errorParseGradeResult qAB "x" 1)) 9).1
          ).responses.all (fun rr => rr.question_id ≠ q.question_id)) = true :=
  ⟨rfl, rfl⟩

/-- C9 (amended): after a successful submission the completion
timestamp is set exactly when the number of recorded responses
equals the number of questions — a count comparison, which coincides
with per-question coverage only when each question is answered at
most once. -/
theorem c9_completion_by_count (session : ExamSession) (resp : StudentResponse)
    (gr : GradeResult) (now : Nat) :
    (submitResponse session resp (.ok gr) now).1.completed_at =
      (if session.responses.length + 1 = session.questions.length then some now
       else session.completed_at) := by
  unfold submitResponse
  by_cases hc : session.responses.length + 1 = session.questions.length
  · simp [List.length_append, hc]
  · simp [List.length_append, hc]

end ExamSys

namespace ExamSys

/-! ## Reconciler breakdown-skipping claim -/

/-- Drop the `criterion_grades` key from an explanation value (other
values unchanged). -/
def eraseCG : PyVal → PyVal
  | .dict d => .dict (d.filter (fun p => ¬ p.1 = "criterion_grades"))
  | v => v

/-- The same grading record with the generator-supplied breakdown
removed. -/
def eraseBreakdown (r : Record) : Record :=
  r.map (fun p => if p.1 = "explanation" then (p.1, eraseCG p.2) else p)

/-- The generator supplied no usable per-criterion breakdown: the
`criterion_grades` value is absent, not a list, or a list with no
mapping entry. -/
def noUsableBreakdown (r : Record) : Bool :=
  match pyGetD (match pyGetD r "explanation" (.dict []) with
                | PyVal.dict d => d
                | _ => []) "criterion_grades" (.list []) with
  | .list l => l.all (fun x => !isDict x)
  | _ => true

/-- Erasing the breakdown leaves every other top-level key alone. -/
lemma pyGet_eraseBreakdown (r : Record) (k : String) (h : ¬ k = "explanation") :
    pyGet (eraseBreakdown r) k = pyGet r k := by
  induction r with
  | nil => rfl
  | cons p rest ih =>
    obtain ⟨k', v⟩ := p
    simp only [eraseBreakdown, List.map_cons] at ih ⊢
    by_cases h1 : k' = "explanation"
    · rw [if_pos h1]
      simp only [pyGet]
      rw [if_neg (by rw [h1]; exact fun he => h he.symm), if_neg (by rw [h1]; exact fun he => h he.symm)]
      exact ih
    · rw [if_neg h1]
      simp only [pyGet]
      by_cases h2 : k' = k
      · rw [if_pos h2, if_pos h2]
      · rw [if_neg h2, if_neg h2]
        exact ih

/-- Erasing the breakdown rewrites the `explanation` value through
`eraseCG`. -/
lemma pyGet_eraseBreakdown_expl (r : Record) :
    pyGet (eraseBreakdown r) "explanation" = (pyGet r "explanation").map eraseCG := by
  induction r with
  | nil => rfl
  | cons p rest ih =>
    obtain ⟨k', v⟩ := p
    simp only [eraseBreakdown, List.map_cons] at ih ⊢
    by_cases h1 : k' = "explanation"
    · rw [if_pos h1]
      simp only [pyGet]
      rw [if_pos h1, if_pos h1]
      rfl
    · rw [if_neg h1]
      simp only [pyGet]
      rw [if_neg h1, if_neg h1]
      exact ih

/-- Filtering out `criterion_grades` leaves other keys alone. -/
lemma pyGet_filterCG (d : Record) (k : String) (h : ¬ k = "criterion_grades") :
    pyGet (d.filter (fun p => ¬ p.1 = "criterion_grades")) k = pyGet d k := by
  induction d with
  | nil => rfl
  | cons p rest ih =>
    obtain ⟨k', v⟩ := p
    by_cases h1 : k' = "criterion_grades"
    · rw [List.filter_cons_of_neg (by simp [h1])]
      simp only [pyGet]
      rw [if_neg (by rw [h1]; exact fun he => h he.symm)]
      exact ih
    · rw [List.filter_cons_of_pos (by simp [h1])]
      simp only [pyGet]
      by_cases h2 : k' = k
      · rw [if_pos h2, if_pos h2]
      · rw [if_neg h2, if_neg h2]
        exact ih

/-- After the filter, `criterion_grades` is absent. -/
lemma pyGet_filterCG_self (d : Record) :
    pyGet (d.filter (fun p => ¬ p.1 = "criterion_grades")) "criterion_grades" = Option.none := by
  induction d with
  | nil => rfl
  | cons p rest ih =>
    obtain ⟨k', v⟩ := p
    by_cases h1 : k' = "criterion_grades"
    · rw [List.filter_cons_of_neg (by simp [h1])]
      exact ih
    · rw [List.filter_cons_of_pos (by simp [h1])]
      simp only [pyGet]
      rw [if_neg h1]
      exact ih

/-- A non-mapping entry is skipped by the criterion-grade loop. -/
lemma cgStep_skip (acc : List CriterionGrade) {x : PyVal} (h : isDict x = false) :
    cgStep acc x = pure acc := by
  cases x <;> first | rfl | simp [isDict] at h

/-- The criterion-grade fold ignores non-mapping entries entirely. -/
lemma foldlM_cgStep_filter (l : List PyVal) :
    ∀ acc, l.foldlM cgStep acc = (l.filter isDict).foldlM cgStep acc := by
  induction l with
  | nil => intro acc; rfl
  | cons a l ih =>
    intro acc
    cases ha : isDict a with
    | true =>
      rw [List.filter_cons_of_pos ha, List.foldlM_cons, List.foldlM_cons]
      have hcongr : (fun acc2 => l.foldlM cgStep acc2) =
          (fun acc2 => (l.filter isDict).foldlM cgStep acc2) := funext ih
      rw [hcongr]
    | false =>
      rw [List.filter_cons_of_neg (by simp [ha]), List.foldlM_cons, cgStep_skip acc ha]
      rw [show ((pure acc : Except String (List CriterionGrade)) >>=
        fun acc2 => l.foldlM cgStep acc2) = l.foldlM cgStep acc from rfl]
      exact ih acc

/-- Building criterion grades from a list is the same as building
from the list with non-mapping entries dropped. -/
lemma buildLLMCriterionGrades_filter (l : List PyVal) :
    buildLLMCriterionGrades (.list l) = buildLLMCriterionGrades (.list (l.filter isDict)) := by
  have heq : ∀ m : List PyVal, buildLLMCriterionGrades (.list m) =
      if m.isEmpty then .ok [] else m.foldlM cgStep [] := fun m => rfl
  rw [heq, heq]
  by_cases hl : l.isEmpty = true
  · have : l = [] := by simpa [List.isEmpty_iff] using hl
    subst this
    rfl
  · rw [if_neg hl, foldlM_cgStep_filter l []]
    by_cases hf : (l.filter isDict).isEmpty = true
    · rw [if_pos hf]
      have : l.filter isDict = [] := by simpa [List.isEmpty_iff] using hf
      rw [this]
      rfl
    · rw [if_neg hf]

/-- With no usable breakdown the build yields the empty list. -/
lemma buildLLMCriterionGrades_noUsable {v : PyVal}
    (h : (match v with
          | PyVal.list l => l.all (fun x => !isDict x)
          | _ => true) = true) :
    buildLLMCriterionGrades v = .ok [] := by
  cases v with
  | list l =>
    simp only at h
    have hfil : l.filter isDict = [] := by
      rw [List.filter_eq_nil_iff]
      intro a ha
      have := List.all_eq_true.mp h a ha
      simp at this
      simp [this]
    rw [buildLLMCriterionGrades_filter, hfil]
    rfl
  | none => rfl
  | bool b => rfl
  | num q => rfl
  | str s => rfl
  | dict d => rfl

end ExamSys

namespace ExamSys

/-- C10: non-mapping entries in the generator-supplied
`criterion_grades` list are silently skipped, and when no usable
breakdown exists (every entry a non-mapping, or the value empty,
absent or not a list) the whole reconciliation result is identical to
the one for the record with the breakdown removed — in particular,
with rubric criteria defined, the same synthesized proportional
grades. -/
theorem c10_non_mapping_entries_skipped (q : ExamQuestion) (r : Record) (now : Nat)
    (h : noUsableBreakdown r = true) :
    (∀ l : List PyVal, buildLLMCriterionGrades (.list l) =
       buildLLMCriterionGrades (.list (l.filter isDict))) ∧
    gradeFromRecord q r now = gradeFromRecord q (eraseBreakdown r) now := by
  refine ⟨buildLLMCriterionGrades_filter, ?_⟩
  simp only [gradeFromRecord]
  have hkey : hasKey (eraseBreakdown r) "error" = hasKey r "error" := by
    unfold hasKey
    rw [pyGet_eraseBreakdown r "error" (by decide)]
  by_cases hk : hasKey r "error" = true
  · rw [if_pos hk, if_pos (by rw [hkey]; exact hk)]
    have e0 : pyGetD (eraseBreakdown r) "error" (.str "Error processing response") =
        pyGetD r "error" (.str "Error processing response") := by
      unfold pyGetD
      rw [pyGet_eraseBreakdown r "error" (by decide)]
    rw [e0]
  · rw [if_neg hk, if_neg (by rw [hkey]; exact hk)]
    have e1 : pyGetD (eraseBreakdown r) "total_points_awarded" (.num 0) =
        pyGetD r "total_points_awarded" (.num 0) := by
      unfold pyGetD
      rw [pyGet_eraseBreakdown r "total_points_awarded" (by decide)]
    have e2 : pyGetD (eraseBreakdown r) "percentage" (.num 0) =
        pyGetD r "percentage" (.num 0) := by
      unfold pyGetD
      rw [pyGet_eraseBreakdown r "percentage" (by decide)]
    have e3 : pyGetD (eraseBreakdown r) "state" (.str "Needs Improvement") =
        pyGetD r "state" (.str "Needs Improvement") := by
      unfold pyGetD
      rw [pyGet_eraseBreakdown r "state" (by decide)]
    have hbf : backfillCriterionGrades q (eraseBreakdown r) = backfillCriterionGrades q r := by
      unfold backfillCriterionGrades backfillStep
      rw [e1]
    have hch : ∀ c, chooseCriterionGrades q (eraseBreakdown r) c =
        chooseCriterionGrades q r c := by
      intro c
      unfold chooseCriterionGrades
      rw [hbf]
    have hcp : computePct (eraseBreakdown r) q.rubric.total_points =
        computePct r q.rubric.total_points := by
      unfold computePct
      rw [e1, e2]
    have hed : (match pyGetD (eraseBreakdown r) "explanation" (PyVal.dict []) with
                | PyVal.dict d => d
                | _ => []) =
        ((match pyGetD r "explanation" (PyVal.dict []) with
          | PyVal.dict d => d
          | _ => []) : Record).filter (fun p => ¬ p.1 = "criterion_grades") := by
      unfold pyGetD
      rw [pyGet_eraseBreakdown_expl r]
      cases hw : pyGet r "explanation" with
      | none => rfl
      | some w => cases w <;> rfl
    rw [hed]
    have f1 : ∀ (k : String) (dflt : PyVal), ¬ k = "criterion_grades" →
        pyGetD (((match pyGetD r "explanation" (PyVal.dict []) with
                  | PyVal.dict d => d
                  | _ => []) : Record).filter (fun p => ¬ p.1 = "criterion_grades")) k dflt =
        pyGetD (match pyGetD r "explanation" (PyVal.dict []) with
                | PyVal.dict d => d
                | _ => []) k dflt := by
      intro k dflt hne
      unfold pyGetD
      rw [pyGet_filterCG _ k hne]
    have fcg : pyGetD (((match pyGetD r "explanation" (PyVal.dict []) with
                  | PyVal.dict d => d
                  | _ => []) : Record).filter (fun p => ¬ p.1 = "criterion_grades"))
        "criterion_grades" (PyVal.list []) = PyVal.list [] := by
      unfold pyGetD
      rw [pyGet_filterCG_self]
      rfl
    rw [fcg]
    rw [f1 "overall_feedback" (PyVal.str "") (by decide)]
    rw [f1 "strengths" (PyVal.list []) (by decide)]
    rw [f1 "weaknesses" (PyVal.list []) (by decide)]
    rw [f1 "suggestions" (PyVal.list []) (by decide)]
    simp only [hch, hcp, e1, e3]
    have hbL : buildLLMCriterionGrades (pyGetD (match pyGetD r "explanation" (PyVal.dict []) with
                | PyVal.dict d => d
                | _ => []) "criterion_grades" (PyVal.list [])) = .ok [] :=
      buildLLMCriterionGrades_noUsable (by simpa [noUsableBreakdown] using h)
    have hbR : buildLLMCriterionGrades (PyVal.list []) = .ok [] := rfl
    rw [hbL, hbR]

end ExamSys

namespace ExamSys

/-- A grading record whose criterion-grade entries are all
non-mappings. -/
def recMixed : Record :=
  [("explanation", .dict [("criterion_grades", .list [.str "x", .num 1])]),
   ("total_points_awarded", .num 15)]

/-- Witness for C10 at a concrete record with only non-mapping
entries. -/
theorem c10_non_mapping_entries_skipped_witness :
    noUsableBreakdown recMixed = true ∧
    ((∀ l : List PyVal, buildLLMCriterionGrades (.list l) =
        buildLLMCriterionGrades (.list (l.filter isDict))) ∧
      gradeFromRecord qAB recMixed 0 = gradeFromRecord qAB (eraseBreakdown recMixed) 0) :=
  ⟨rfl, c10_non_mapping_entries_skipped qAB recMixed 0 rfl⟩

end ExamSys
